import Mathlib

/-!
Shallow embedding of the core of the `ankita-pubsub` message broker
(TypeScript sources `src/pubsub/queue.ts`, `src/pubsub/broker.ts`,
`src/pubsub/consumer-group.ts`, and the topic manager), together with
theorems settling the specification claims about it.

Conventions of the embedding:
* JS `Map`s are association lists in insertion order (`alookup` / `aset` /
  `aremove` mirror `Map.get` / `Map.set` / `Map.delete`).
* JS `Set`s of strings are duplicate-free lists in insertion order.
* Timestamps (`Date.now()`) are naturals passed explicitly as `now`.
* Randomly generated identifiers (`generateId`) are passed explicitly.
* Message payloads are modelled as JS objects with string-valued fields
  (an association list); the core never inspects payloads except for
  top-level field lookups in filters and sticky keys.
* Subscriber callbacks are closures held outside the broker state; the
  state keeps the set of subscriber ids that have a registered callback,
  and whether an invoked callback throws is supplied as an oracle
  `sinkThrows`.  Each callback invocation is recorded in a delivery log.
-/

namespace Ankita

/-- TS `Map.get`: look up a key in an insertion-ordered association list. -/
def alookup {α : Type} (l : List (String × α)) (k : String) : Option α :=
  (l.find? (fun p => p.1 == k)).map (fun p => p.2)

/-- TS `Map.set`: replace the value of an existing key in place, or append a
new entry (JS `Map` keeps insertion order for existing keys). -/
def aset {α : Type} (l : List (String × α)) (k : String) (v : α) : List (String × α) :=
  if (l.find? (fun p => p.1 == k)).isSome then
    l.map (fun p => if p.1 == k then (k, v) else p)
  else
    l ++ [(k, v)]

/-- TS `Map.delete`. -/
def aremove {α : Type} (l : List (String × α)) (k : String) : List (String × α) :=
  l.filter (fun p => p.1 != k)

/-- TS `new Set([...a, ...b])`: deduplicate keeping the first occurrence of
each element, in insertion order. -/
def insertionDedup : List String → List String
  | [] => []
  | a :: rest => a :: (insertionDedup rest).filter (fun b => b != a)

/-- Message payloads: a JS object with string-valued top-level fields. -/
abbrev Payload := List (String × String)

/-- Field access `payload[key]` on a payload object. -/
def payloadField (payload : Payload) (key : String) : Option String :=
  (payload.find? (fun p => p.1 == key)).map (fun p => p.2)

/-- TS `Message` from `types.ts`. An absent `headers` record is modelled as
the empty list (the code only ever reads individual header keys). -/
structure Message where
  id : String
  topic : String
  payload : Payload
  timestamp : Nat
  publisherId : String
  headers : List (String × String)
  replyTo : Option String
  correlationId : Option String
  ttl : Option Nat
deriving DecidableEq, Inhabited

/-- TS `QueuedMessage` from `types.ts` (`extends Message` is modelled by the
`msg` component). -/
structure QueuedMessage where
  msg : Message
  subscriberId : String
  queuedAt : Nat
  attempts : Nat
  maxRetries : Nat
  nextRetryAt : Option Nat
deriving DecidableEq, Inhabited

/-- TS `DeadLetterMessage` from `types.ts` (`extends QueuedMessage` is
modelled by the `qm` component). -/
structure DeadLetterMessage where
  qm : QueuedMessage
  failureReason : String
  failedAt : Nat
  originalTopic : String
deriving DecidableEq, Inhabited

/-- The `message` property that `MessageBroker.retryDeadLetter` reads from
a dead-letter entry.  `DeadLetterMessage` declares no such property and
`moveToDeadLetter` builds each entry by spreading the queued message plus
`failureReason`, `failedAt` and `originalTopic`, so at runtime the access
`item.message` always yields `undefined`. -/
def DeadLetterMessage.messageField (_ : DeadLetterMessage) : Option Message :=
  none

/-- State of `MessageQueue` from `queue.ts`. -/
structure MessageQueue where
  queues : List (String × List QueuedMessage)
  deadLetterQueue : List DeadLetterMessage
  maxQueueSize : Nat
  maxDeadLetterSize : Nat
deriving DecidableEq, Inhabited

/-- TS `new MessageQueue(maxQueueSize = 10000, maxDeadLetterSize = 1000)`
with both arguments defaulted, as constructed by `MessageBroker`. -/
def MessageQueue.empty : MessageQueue :=
  { queues := []
    deadLetterQueue := []
    maxQueueSize := 10000
    maxDeadLetterSize := 1000 }

/-- TS `MessageQueue.moveToDeadLetter`. -/
def MessageQueue.moveToDeadLetter (st : MessageQueue) (message : QueuedMessage)
    (reason : String) (now : Nat) : MessageQueue :=
  let dlqMessage : DeadLetterMessage :=
    { qm := message
      failureReason := reason
      failedAt := now
      originalTopic := message.msg.topic }
  let dlq := st.deadLetterQueue ++ [dlqMessage]
  let dlq := if dlq.length > st.maxDeadLetterSize then dlq.tail else dlq
  { st with deadLetterQueue := dlq }

/-- TS `MessageQueue.enqueue`. -/
def MessageQueue.enqueue (st : MessageQueue) (subscriberId : String)
    (message : QueuedMessage) (now : Nat) : MessageQueue :=
  let queue := (alookup st.queues subscriberId).getD []
  if queue.length ≥ st.maxQueueSize then
    match queue with
    | [] =>
      -- `queue.shift()` yields `undefined` on an empty queue, so nothing
      -- is evicted (reachable only with `maxQueueSize = 0`)
      { st with queues := aset st.queues subscriberId [message] }
    | evicted :: rest =>
      let st' := st.moveToDeadLetter evicted "Queue overflow - message evicted" now
      { st' with queues := aset st'.queues subscriberId (rest ++ [message]) }
  else
    { st with queues := aset st.queues subscriberId (queue ++ [message]) }

/-- Readiness test `!msg.nextRetryAt || msg.nextRetryAt <= now` used by
`dequeue` and `peek` (a `nextRetryAt` of `0` is falsy in JS, which
coincides with `0 ≤ now`). -/
def QueuedMessage.isReady (m : QueuedMessage) (now : Nat) : Bool :=
  match m.nextRetryAt with
  | none => true
  | some t => t ≤ now

/-- TS `MessageQueue.dequeue`: return the first ready message and remove it
with `splice(readyIndex, 1)`. -/
def MessageQueue.dequeue (st : MessageQueue) (subscriberId : String)
    (now : Nat) : Option QueuedMessage × MessageQueue :=
  match alookup st.queues subscriberId with
  | none => (none, st)
  | some queue =>
    if queue.isEmpty then (none, st)
    else
      match queue.findIdx? (fun m => m.isReady now) with
      | none => (none, st)
      | some readyIndex =>
        ((queue.get? readyIndex).getD default,
          { st with queues := aset st.queues subscriberId (queue.eraseIdx readyIndex) })

/-- TS `MessageQueue.ack`. -/
def MessageQueue.ack (st : MessageQueue) (subscriberId messageId : String) :
    Bool × MessageQueue :=
  match alookup st.queues subscriberId with
  | none => (false, st)
  | some queue =>
    match queue.findIdx? (fun m => m.msg.id == messageId) with
    | none => (false, st)
    | some index =>
      (true, { st with queues := aset st.queues subscriberId (queue.eraseIdx index) })

/-- TS `MessageQueue.nack`. -/
def MessageQueue.nack (st : MessageQueue) (subscriberId messageId reason : String)
    (now : Nat) : Bool × MessageQueue :=
  match alookup st.queues subscriberId with
  | none => (false, st)
  | some queue =>
    match queue.findIdx? (fun m => m.msg.id == messageId) with
    | none => (false, st)
    | some index =>
      let message := (queue.get? index).getD default
      let message := { message with attempts := message.attempts + 1 }
      if message.attempts ≥ message.maxRetries then
        let st' := { st with queues := aset st.queues subscriberId (queue.eraseIdx index) }
        (true, st'.moveToDeadLetter message reason now)
      else
        let backoffMs := min (1000 * 2 ^ message.attempts) 60000
        let message := { message with nextRetryAt := some (now + backoffMs) }
        (true, { st with queues := aset st.queues subscriberId (queue.set index message) })

/-- TS `MessageQueue.getQueueDepth`. -/
def MessageQueue.getQueueDepth (st : MessageQueue) (subscriberId : String) : Nat :=
  ((alookup st.queues subscriberId).getD []).length

/-- TS `MessageQueue.retryFromDeadLetter`: remove the entry by id, reset its
attempt counter and retry schedule, and return it. -/
def MessageQueue.retryFromDeadLetter (st : MessageQueue) (messageId : String) :
    Option DeadLetterMessage × MessageQueue :=
  match st.deadLetterQueue.findIdx? (fun m => m.qm.msg.id == messageId) with
  | none => (none, st)
  | some index =>
    let message := (st.deadLetterQueue.get? index).getD default
    let message := { message with qm := { message.qm with attempts := 0, nextRetryAt := none } }
    (some message, { st with deadLetterQueue := st.deadLetterQueue.eraseIdx index })

/-- TS `MessageQueue.removeFromDeadLetter`. -/
def MessageQueue.removeFromDeadLetter (st : MessageQueue) (messageId : String) :
    Bool × MessageQueue :=
  match st.deadLetterQueue.findIdx? (fun m => m.qm.msg.id == messageId) with
  | none => (false, st)
  | some index =>
    (true, { st with deadLetterQueue := st.deadLetterQueue.eraseIdx index })

/-- TS `TopicConfig` from `types.ts`. -/
structure TopicConfig where
  maxQueueSize : Nat
  messageRetention : Nat
  maxRetries : Nat
  retryDelay : Nat
  requireAck : Bool
deriving DecidableEq, Inhabited

/-- TS `Topic` from `types.ts`. -/
structure Topic where
  name : String
  createdAt : Nat
  createdBy : String
  messageCount : Nat
  subscriberCount : Nat
  config : TopicConfig
deriving DecidableEq, Inhabited

/-- TS `Partial<TopicConfig>`: the config overrides accepted by
`createTopic`; spreading overlays exactly the present keys. -/
structure TopicConfigOverride where
  maxQueueSize : Option Nat
  messageRetention : Option Nat
  maxRetries : Option Nat
  retryDelay : Option Nat
  requireAck : Option Bool
deriving DecidableEq, Inhabited

/-- The empty override `{}`. -/
def TopicConfigOverride.empty : TopicConfigOverride :=
  { maxQueueSize := none
    messageRetention := none
    maxRetries := none
    retryDelay := none
    requireAck := none }

/-- The spread `{ ...defaultConfig, ...config }`. -/
def overlayConfig (base : TopicConfig) (o : TopicConfigOverride) : TopicConfig :=
  { maxQueueSize := o.maxQueueSize.getD base.maxQueueSize
    messageRetention := o.messageRetention.getD base.messageRetention
    maxRetries := o.maxRetries.getD base.maxRetries
    retryDelay := o.retryDelay.getD base.retryDelay
    requireAck := o.requireAck.getD base.requireAck }

/-- The two error conditions `createTopic` can raise. -/
inductive TopicError
  | alreadyExists
  | invalidName
deriving DecidableEq

/-- One character of the validation pattern for topic names. -/
def isAllowedTopicChar (c : Char) : Bool :=
  c.isAlphanum || c == '.' || c == '_' || c == '#' || c == '*' || c == '-'

/-- The topic-name validation test against the pattern of alphanumerics,
dots, hyphens, underscores and the wildcard tokens, anchored at both ends
and requiring at least one character. -/
def isValidTopicName (name : String) : Bool :=
  name.length > 0 && name.data.all isAllowedTopicChar

/-- State of `TopicManager` from `topic.ts`. -/
structure TopicManager where
  topics : List (String × Topic)
  messageHistory : List (String × List Message)
  topicSubscribers : List (String × List String)
deriving DecidableEq, Inhabited

/-- TS `new TopicManager()`. -/
def TopicManager.empty : TopicManager :=
  { topics := [], messageHistory := [], topicSubscribers := [] }

/-- The default configuration object local to `TopicManager.createTopic`. -/
def createTopicDefaultConfig : TopicConfig :=
  { maxQueueSize := 1000
    messageRetention := 3600000
    maxRetries := 3
    retryDelay := 5000
    requireAck := false }

/-- TS `TopicManager.createTopic`. -/
def TopicManager.createTopic (tm : TopicManager) (name createdBy : String)
    (config : TopicConfigOverride) (now : Nat) :
    Except TopicError (Topic × TopicManager) :=
  if (alookup tm.topics name).isSome then
    .error .alreadyExists
  else if !isValidTopicName name then
    .error .invalidName
  else
    let topic : Topic :=
      { name := name
        createdAt := now
        createdBy := createdBy
        messageCount := 0
        subscriberCount := 0
        config := overlayConfig createTopicDefaultConfig config }
    .ok (topic,
      { tm with
        topics := aset tm.topics name topic
        messageHistory := aset tm.messageHistory name []
        topicSubscribers := aset tm.topicSubscribers name [] })

/-- TS `TopicManager.hasTopic`. -/
def TopicManager.hasTopic (tm : TopicManager) (name : String) : Bool :=
  (alookup tm.topics name).isSome

/-- TS `TopicManager.getTopic`. -/
def TopicManager.getTopic (tm : TopicManager) (name : String) : Option Topic :=
  alookup tm.topics name

/-- TS `TopicManager.getSubscribers` (absent set yields the empty list). -/
def TopicManager.getSubscribers (tm : TopicManager) (topicName : String) : List String :=
  (alookup tm.topicSubscribers topicName).getD []

/-- TS `TopicManager.addSubscriber`. -/
def TopicManager.addSubscriber (tm : TopicManager) (topicName subscriberId : String) :
    Bool × TopicManager :=
  match alookup tm.topicSubscribers topicName with
  | none => (false, tm)
  | some subscribers =>
    if subscribers.contains subscriberId then
      (true, tm)
    else
      let subscribers := subscribers ++ [subscriberId]
      let tm := { tm with topicSubscribers := aset tm.topicSubscribers topicName subscribers }
      let tm :=
        match alookup tm.topics topicName with
        | none => tm
        | some topic =>
          let topic := { topic with subscriberCount := subscribers.length }
          { tm with topics := aset tm.topics topicName topic }
      (true, tm)

/-- The second trimming loop of `recordMessage`: shift from the front
while the history is longer than `maxHistory`. -/
def trimToMax (maxHistory : Nat) : List Message → List Message
  | [] => []
  | m :: rest =>
    if (m :: rest).length > maxHistory then trimToMax maxHistory rest
    else m :: rest

/-- TS `TopicManager.recordMessage`: increment the counter, append to the
history, shift from the front while the front timestamp is older than
`now − retention`, then shift from the front while the length exceeds
1000.  (In JS the cutoff can be negative, in which case the first loop
removes nothing; truncated `Nat` subtraction behaves identically.) -/
def TopicManager.recordMessage (tm : TopicManager) (message : Message)
    (now : Nat) : TopicManager :=
  match alookup tm.topics message.topic with
  | none => tm
  | some topic =>
    let topic := { topic with messageCount := topic.messageCount + 1 }
    let tm := { tm with topics := aset tm.topics message.topic topic }
    let history := (alookup tm.messageHistory message.topic).getD []
    let history := history ++ [message]
    let cutoff := now - topic.config.messageRetention
    let history := history.dropWhile (fun m => m.timestamp < cutoff)
    let history := trimToMax 1000 history
    { tm with messageHistory := aset tm.messageHistory message.topic history }

/-- TS `LoadBalanceStrategy` from `consumer-group.ts`. -/
inductive LoadBalanceStrategy
  | roundRobin
  | sticky
  | broadcast
  | random
deriving DecidableEq, Inhabited

/-- TS `ConsumerGroupMember` from `consumer-group.ts`. -/
structure ConsumerGroupMember where
  subscriberId : String
  clientId : String
  joinedAt : Nat
  lastHeartbeat : Nat
  assignedPartitions : List Nat
  messagesProcessed : Nat
  isLeader : Bool
deriving DecidableEq, Inhabited

/-- TS `ConsumerGroup` from `consumer-group.ts`. -/
structure ConsumerGroup where
  name : String
  topic : String
  strategy : LoadBalanceStrategy
  members : List ConsumerGroupMember
  createdAt : Nat
  currentOffset : Nat
  committedOffset : Nat
deriving DecidableEq, Inhabited

/-- State of `ConsumerGroupManager`. -/
structure ConsumerGroupManager where
  groups : List (String × ConsumerGroup)
  memberToGroup : List (String × String)
  roundRobinIndex : List (String × Nat)
  stickyAssignments : List (String × String)
deriving DecidableEq, Inhabited

/-- A fresh manager with no persisted groups to reload. -/
def ConsumerGroupManager.empty : ConsumerGroupManager :=
  { groups := [], memberToGroup := [], roundRobinIndex := [], stickyAssignments := [] }

/-- Truncation of an integer to a signed 32-bit value, as performed by
the JS bitwise operators. -/
def toInt32 (n : Int) : Int :=
  let r := n % 4294967296
  if r < 2147483648 then r else r - 4294967296

/-- One step of `hashCode`: `hash = ((hash << 5) - hash) + char` followed
by the int32 coercion `hash = hash & hash`. -/
def hashStep (h : Int) (c : Nat) : Int :=
  toInt32 (toInt32 (h * 32) - h + c)

/-- TS `ConsumerGroupManager.hashCode` over the UTF-16 code units of the
string (sticky keys in this embedding only contain ASCII, for which
`charCodeAt` agrees with the Unicode code point). -/
def hashCode (s : String) : Int :=
  s.data.foldl (fun h c => hashStep h c.toNat) 0

/-- A payload field access used with a JS truthiness test: an absent key
or an empty-string value are both falsy. -/
def truthyField (payload : Payload) (key : String) : Option String :=
  match payloadField payload key with
  | some v => if v == "" then none else some v
  | none => none

/-- TS `ConsumerGroupManager.getStickyKey`. -/
def getStickyKey (message : Message) : String :=
  match truthyField message.payload "userId" with
  | some v => "user:" ++ v
  | none =>
    match truthyField message.payload "orderId" with
    | some v => "order:" ++ v
    | none =>
      match truthyField message.payload "sessionId" with
      | some v => "session:" ++ v
      | none =>
        match message.correlationId with
        | some c => if c == "" then "publisher:" ++ message.publisherId else "correlation:" ++ c
        | none => "publisher:" ++ message.publisherId

/-- TS `ConsumerGroupManager.rebalance`: spread 16 virtual partitions over
the members in order, the first `16 % n` members receiving one extra. -/
def rebalanceMembers (members : List ConsumerGroupMember) : List ConsumerGroupMember :=
  let numMembers := members.length
  if numMembers == 0 then members
  else
    let partitionsPerMember := 16 / numMembers
    let remainder := 16 % numMembers
    members.enum.map (fun p =>
      let i := p.1
      let count := partitionsPerMember + (if i < remainder then 1 else 0)
      let start := i * partitionsPerMember + min i remainder
      { p.2 with assignedPartitions := (List.range count).map (fun j => start + j) })

/-- TS `rebalance(groupName)` lifted to the manager state. -/
def ConsumerGroupManager.rebalance (st : ConsumerGroupManager) (groupName : String) :
    ConsumerGroupManager :=
  match alookup st.groups groupName with
  | none => st
  | some group =>
    let group := { group with members := rebalanceMembers group.members }
    { st with groups := aset st.groups groupName group }

/-- TS `ConsumerGroupManager.createGroup`; the name collision is raised as an
error, leaving the state unchanged. -/
def ConsumerGroupManager.createGroup (st : ConsumerGroupManager)
    (name topic : String) (strategy : LoadBalanceStrategy) (now : Nat) :
    Except String (ConsumerGroup × ConsumerGroupManager) :=
  if (alookup st.groups name).isSome then
    .error "already exists"
  else
    let group : ConsumerGroup :=
      { name := name
        topic := topic
        strategy := strategy
        members := []
        createdAt := now
        currentOffset := 0
        committedOffset := 0 }
    .ok (group, { st with groups := aset st.groups name group })

/-- TS `ConsumerGroupManager.joinGroup`. -/
def ConsumerGroupManager.joinGroup (st : ConsumerGroupManager)
    (groupName subscriberId clientId : String) (now : Nat) :
    Except String (ConsumerGroupMember × ConsumerGroupManager) :=
  match alookup st.groups groupName with
  | none => .error "not found"
  | some group =>
    match group.members.find? (fun m => m.subscriberId == subscriberId) with
    | some member =>
      let member := { member with lastHeartbeat := now }
      let members := group.members.map (fun m =>
        if m.subscriberId == subscriberId then member else m)
      .ok (member, { st with groups := aset st.groups groupName ({ group with members := members }) })
    | none =>
      let member : ConsumerGroupMember :=
        { subscriberId := subscriberId
          clientId := clientId
          joinedAt := now
          lastHeartbeat := now
          assignedPartitions := []
          messagesProcessed := 0
          isLeader := group.members.length == 0 }
      let st := { st with
        groups := aset st.groups groupName ({ group with members := group.members ++ [member] })
        memberToGroup := aset st.memberToGroup subscriberId groupName }
      .ok (member, st.rebalance groupName)

/-- TS `ConsumerGroupManager.leaveGroup`. -/
def ConsumerGroupManager.leaveGroup (st : ConsumerGroupManager)
    (subscriberId : String) : ConsumerGroupManager :=
  match alookup st.memberToGroup subscriberId with
  | none => st
  | some groupName =>
    match alookup st.groups groupName with
    | none => st
    | some group =>
      match group.members.findIdx? (fun m => m.subscriberId == subscriberId) with
      | none => st
      | some memberIndex =>
        let wasLeader := ((group.members.get? memberIndex).getD default).isLeader
        let members := group.members.eraseIdx memberIndex
        let members :=
          if wasLeader then
            match members with
            | [] => members
            | head :: rest => { head with isLeader := true } :: rest
          else members
        let st := { st with
          groups := aset st.groups groupName ({ group with members := members })
          memberToGroup := aremove st.memberToGroup subscriberId }
        st.rebalance groupName

/-- TS `ConsumerGroupManager.roundRobinSelect` (the member list is known to
be non-empty at every call site). -/
def ConsumerGroupManager.roundRobinSelect (st : ConsumerGroupManager)
    (group : ConsumerGroup) : String × ConsumerGroupManager :=
  let index := (alookup st.roundRobinIndex group.name).getD 0
  let member := (group.members.get? (index % group.members.length)).getD default
  (member.subscriberId,
    { st with roundRobinIndex := aset st.roundRobinIndex group.name (index + 1) })

/-- TS `ConsumerGroupManager.stickySelect`. -/
def ConsumerGroupManager.stickySelect (st : ConsumerGroupManager)
    (group : ConsumerGroup) (message : Message) : String × ConsumerGroupManager :=
  let stickyKey := getStickyKey message
  match alookup st.stickyAssignments stickyKey with
  | some assigned =>
    if group.members.any (fun m => m.subscriberId == assigned) then (assigned, st)
    else
      let memberIndex := (hashCode stickyKey).natAbs % group.members.length
      let assigned := ((group.members.get? memberIndex).getD default).subscriberId
      (assigned, { st with stickyAssignments := aset st.stickyAssignments stickyKey assigned })
  | none =>
    let memberIndex := (hashCode stickyKey).natAbs % group.members.length
    let assigned := ((group.members.get? memberIndex).getD default).subscriberId
    (assigned, { st with stickyAssignments := aset st.stickyAssignments stickyKey assigned })

/-- TS `ConsumerGroupManager.getNextSubscriber`.  The draw for the `random`
strategy (`Math.random()` scaled to the member count) is supplied as the
`randomIndex` oracle. -/
def ConsumerGroupManager.getNextSubscriber (st : ConsumerGroupManager)
    (groupName : String) (message : Message) (randomIndex : Nat) :
    Option String × ConsumerGroupManager :=
  match alookup st.groups groupName with
  | none => (none, st)
  | some group =>
    if group.members.length == 0 then (none, st)
    else
      match group.strategy with
      | .roundRobin =>
        let (s, st) := st.roundRobinSelect group
        (some s, st)
      | .sticky =>
        let (s, st) := st.stickySelect group message
        (some s, st)
      | .random =>
        let member := (group.members.get? (randomIndex % group.members.length)).getD default
        (some member.subscriberId, st)
      | .broadcast => (none, st)

/-- A compiled header filter entry: either a literal string or a regex,
the latter modelled by its matching function, treated as given. -/
inductive HeaderPattern
  | lit (s : String)
  | regex (test : String → Bool)

/-- TS `MessageFilter` from `types.ts`. -/
structure MessageFilter where
  headers : Option (List (String × HeaderPattern))
  payload : Option (List (String × String))

/-- TS `Subscriber` from `types.ts` (`topics` is a `Set` built from the
subscription list). -/
structure Subscriber where
  id : String
  clientId : String
  topics : List String
  createdAt : Nat
  lastActivity : Nat
  isOnline : Bool
  pendingMessages : Nat
  deliveredMessages : Nat
  filter : Option MessageFilter

/-- One header check of `matchesFilter`: the key must be present with a
truthy (non-empty) value that matches the literal or the regex. -/
def headerMatches (message : Message) (key : String) (pattern : HeaderPattern) : Bool :=
  match (message.headers.find? (fun p => p.1 == key)).map (fun p => p.2) with
  | none => false
  | some value =>
    if value == "" then false
    else
      match pattern with
      | .lit s => value == s
      | .regex test => test value

/-- TS `MessageBroker.matchesFilter`.  Payloads are modelled as objects, so
the `typeof payload === 'object'` guard always holds here. -/
def matchesFilter (message : Message) (filter : MessageFilter) : Bool :=
  (match filter.headers with
   | none => true
   | some hs => hs.all (fun p => headerMatches message p.1 p.2)) &&
  (match filter.payload with
   | none => true
   | some ps => ps.all (fun p => payloadField message.payload p.1 == some p.2))

/-- The oracle telling whether the callback registered for a subscriber
throws when invoked on a message. -/
abbrev SinkBehavior := String → Message → Bool

/-- One recorded callback invocation: the subscriber whose callback ran
and the message it was handed. -/
abbrev Delivery := String × Message

/-- State of `MessageBroker` (the fields the routing, queueing and DLQ
claims depend on; publisher statistics, event emission and the metrics
counters other than `totalMessages` are external observers that no state
transition reads back). -/
structure Broker where
  topicManager : TopicManager
  messageQueue : MessageQueue
  subscribers : List (String × Subscriber)
  messageCallbacks : List String
  totalMessages : Nat

/-- TS `new MessageBroker()`. -/
def Broker.new : Broker :=
  { topicManager := TopicManager.empty
    messageQueue := MessageQueue.empty
    subscribers := []
    messageCallbacks := []
    totalMessages := 0 }

/-- TS `MessageBroker.queueMessage`.  `inheritedRetryAt` models the spread
`{ ...message }`: when the value delivered came from the queue it is a
`QueuedMessage` whose `nextRetryAt` survives the spread, otherwise it is
a plain `Message` and the field is absent. -/
def Broker.queueMessage (b : Broker) (subscriberId : String) (message : Message)
    (inheritedRetryAt : Option Nat) (now : Nat) : Broker :=
  let config := (b.topicManager.getTopic message.topic).map Topic.config
  -- `config?.maxRetries || 3`: a configured value of 0 is falsy
  let maxRetries :=
    match config with
    | some cfg => if cfg.maxRetries == 0 then 3 else cfg.maxRetries
    | none => 3
  let queuedMessage : QueuedMessage :=
    { msg := message
      subscriberId := subscriberId
      queuedAt := now
      attempts := 0
      maxRetries := maxRetries
      nextRetryAt := inheritedRetryAt }
  let mq := b.messageQueue.enqueue subscriberId queuedMessage now
  let b := { b with messageQueue := mq }
  match alookup b.subscribers subscriberId with
  | none => b
  | some sub =>
    let sub := { sub with pendingMessages := mq.getQueueDepth subscriberId }
    { b with subscribers := aset b.subscribers subscriberId sub }

/-- TS `MessageBroker.deliverMessage`: invoke the callback if one is
registered; on a throw, queue the message instead.  Every callback
invocation is appended to the delivery log. -/
def Broker.deliverMessage (b : Broker) (sinkThrows : SinkBehavior)
    (subscriberId : String) (message : Message) (inheritedRetryAt : Option Nat)
    (now : Nat) : Broker × List Delivery :=
  if b.messageCallbacks.contains subscriberId then
    if sinkThrows subscriberId message then
      (b.queueMessage subscriberId message inheritedRetryAt now, [(subscriberId, message)])
    else
      let b :=
        match alookup b.subscribers subscriberId with
        | none => b
        | some sub =>
          let sub := { sub with
            deliveredMessages := sub.deliveredMessages + 1
            lastActivity := now }
          { b with subscribers := aset b.subscribers subscriberId sub }
      (b, [(subscriberId, message)])
  else (b, [])

/-- The body of the `for` loop of `routeMessage` for one subscriber id. -/
def Broker.routeOne (b : Broker) (sinkThrows : SinkBehavior) (message : Message)
    (subscriberId : String) (now : Nat) : Broker × List Delivery :=
  match alookup b.subscribers subscriberId with
  | none => (b, [])
  | some subscriber =>
    let skip :=
      match subscriber.filter with
      | some f => !matchesFilter message f
      | none => false
    if skip then (b, [])
    else if subscriber.isOnline then
      b.deliverMessage sinkThrows subscriberId message none now
    else
      (b.queueMessage subscriberId message none now, [])

/-- The `for` loop of `routeMessage` over the deduplicated subscriber
ids. -/
def Broker.routeLoop (sinkThrows : SinkBehavior) (message : Message) (now : Nat) :
    List String → Broker → Broker × List Delivery
  | [], b => (b, [])
  | subscriberId :: rest, b =>
    let step := b.routeOne sinkThrows message subscriberId now
    let next := Broker.routeLoop sinkThrows message now rest step.1
    (next.1, step.2 ++ next.2)

/-- TS `MessageBroker.routeMessage`: direct subscribers of the topic plus
subscribers of the literal topic `"#"`, deduplicated, each processed by
`routeOne`.  The consumer-group manager is never consulted. -/
def Broker.routeMessage (b : Broker) (sinkThrows : SinkBehavior)
    (message : Message) (now : Nat) : Broker × List Delivery :=
  let subscriberIds := b.topicManager.getSubscribers message.topic
  let wildcardSubscriberIds := b.topicManager.getSubscribers "#"
  let allSubscriberIds := insertionDedup (subscriberIds ++ wildcardSubscriberIds)
  Broker.routeLoop sinkThrows message now allSubscriberIds b

/-- The option bag of `MessageBroker.publish`. -/
structure PublishOptions where
  headers : List (String × String)
  ttl : Option Nat
  correlationId : Option String
  replyTo : Option String
deriving DecidableEq, Inhabited

/-- TS `{}`: no options. -/
def PublishOptions.empty : PublishOptions :=
  { headers := [], ttl := none, correlationId := none, replyTo := none }

/-- TS `MessageBroker.publish`.  The generated message id is supplied as
`msgId`.  A topic-name validation failure from the auto-create is
surfaced as the thrown error. -/
def Broker.publish (b : Broker) (sinkThrows : SinkBehavior) (topic : String)
    (payload : Payload) (publisherId : String) (options : PublishOptions)
    (msgId : String) (now : Nat) :
    Except TopicError (Message × Broker × List Delivery) :=
  let tmE :=
    if b.topicManager.hasTopic topic then Except.ok b.topicManager
    else (b.topicManager.createTopic topic publisherId TopicConfigOverride.empty now).map
      (fun p => p.2)
  match tmE with
  | .error e => .error e
  | .ok tm =>
    let message : Message :=
      { id := msgId
        topic := topic
        payload := payload
        timestamp := now
        publisherId := publisherId
        headers := options.headers
        replyTo := options.replyTo
        correlationId := options.correlationId
        ttl := options.ttl }
    let tm := tm.recordMessage message now
    let b := { b with topicManager := tm }
    let routed := b.routeMessage sinkThrows message now
    let b := { routed.1 with totalMessages := routed.1.totalMessages + 1 }
    .ok (message, b, routed.2)

/-- The `for` loop of `subscribe` over the topic list: auto-create each
missing topic, then `addSubscriber`. -/
def subscribeTopicsLoop (clientId subscriberId : String) (now : Nat) :
    List String → TopicManager → Except TopicError TopicManager
  | [], tm => .ok tm
  | t :: rest, tm =>
    let tmE :=
      if tm.hasTopic t then Except.ok tm
      else (tm.createTopic t clientId TopicConfigOverride.empty now).map (fun p => p.2)
    match tmE with
    | .error e => .error e
    | .ok tm =>
      let added := tm.addSubscriber t subscriberId
      subscribeTopicsLoop clientId subscriberId now rest added.2

/-- The `while` loop of `drainQueue`, with an explicit fuel.  Whenever
the TS loop terminates (in particular whenever the drained sinks do not
throw), the initial queue depth is enough fuel to reproduce it exactly. -/
def Broker.drainLoop (sinkThrows : SinkBehavior) (subscriberId : String)
    (now : Nat) : Nat → Broker → Broker × List Delivery
  | 0, b => (b, [])
  | fuel + 1, b =>
    match b.messageQueue.dequeue subscriberId now with
    | (none, _) => (b, [])
    | (some qm, mq) =>
      let b := { b with messageQueue := mq }
      let step := b.deliverMessage sinkThrows subscriberId qm.msg qm.nextRetryAt now
      let next := Broker.drainLoop sinkThrows subscriberId now fuel step.1
      (next.1, step.2 ++ next.2)

/-- TS `MessageBroker.drainQueue`: drain ready messages, then refresh the
subscriber's pending count. -/
def Broker.drainQueue (b : Broker) (sinkThrows : SinkBehavior)
    (subscriberId : String) (now : Nat) : Broker × List Delivery :=
  let fuel := b.messageQueue.getQueueDepth subscriberId
  let drained := Broker.drainLoop sinkThrows subscriberId now fuel b
  let b := drained.1
  let b :=
    match alookup b.subscribers subscriberId with
    | none => b
    | some sub =>
      let sub := { sub with pendingMessages := b.messageQueue.getQueueDepth subscriberId }
      { b with subscribers := aset b.subscribers subscriberId sub }
  (b, drained.2)

/-- TS `MessageBroker.subscribe`.  The generated subscriber id is supplied
as `subscriberId`; registering the callback closure is modelled by adding
the id to `messageCallbacks`. -/
def Broker.subscribe (b : Broker) (sinkThrows : SinkBehavior) (clientId : String)
    (topics : List String) (filter : Option MessageFilter) (subscriberId : String)
    (now : Nat) : Except TopicError (Subscriber × Broker × List Delivery) :=
  let subscriber : Subscriber :=
    { id := subscriberId
      clientId := clientId
      topics := insertionDedup topics
      createdAt := now
      lastActivity := now
      isOnline := true
      pendingMessages := 0
      deliveredMessages := 0
      filter := filter }
  let b := { b with
    subscribers := aset b.subscribers subscriberId subscriber
    messageCallbacks :=
      if b.messageCallbacks.contains subscriberId then b.messageCallbacks
      else b.messageCallbacks ++ [subscriberId] }
  match subscribeTopicsLoop clientId subscriberId now topics b.topicManager with
  | .error e => .error e
  | .ok tm =>
    let b := { b with topicManager := tm }
    let drained := b.drainQueue sinkThrows subscriberId now
    .ok (subscriber, drained.1, drained.2)

/-- TS `MessageBroker.setSubscriberOnline`. -/
def Broker.setSubscriberOnline (b : Broker) (sinkThrows : SinkBehavior)
    (subscriberId : String) (online : Bool) (now : Nat) : Broker × List Delivery :=
  match alookup b.subscribers subscriberId with
  | none => (b, [])
  | some sub =>
    let sub := { sub with isOnline := online, lastActivity := now }
    let b := { b with subscribers := aset b.subscribers subscriberId sub }
    if online then b.drainQueue sinkThrows subscriberId now else (b, [])

/-- TS `MessageBroker.ack`. -/
def Broker.ack (b : Broker) (subscriberId messageId : String) : Bool × Broker :=
  let r := b.messageQueue.ack subscriberId messageId
  (r.1, { b with messageQueue := r.2 })

/-- TS `MessageBroker.nack`. -/
def Broker.nack (b : Broker) (subscriberId messageId reason : String) (now : Nat) :
    Bool × Broker :=
  let r := b.messageQueue.nack subscriberId messageId reason now
  (r.1, { b with messageQueue := r.2 })

/-- TS `MessageBroker.retryDeadLetter`: find the entry by id, and only when
the (never present) `message` property is truthy re-route it and remove
the entry. -/
def Broker.retryDeadLetter (b : Broker) (sinkThrows : SinkBehavior)
    (messageId : String) (now : Nat) : Bool × Broker × List Delivery :=
  let dlq := b.messageQueue.deadLetterQueue
  match dlq.find? (fun m => m.qm.msg.id == messageId) with
  | some item =>
    match item.messageField with
    | some msg =>
      let routed := b.routeMessage sinkThrows msg now
      let removed := routed.1.messageQueue.removeFromDeadLetter messageId
      (true, { routed.1 with messageQueue := removed.2 }, routed.2)
    | none => (false, b, [])
  | none => (false, b, [])

/-- TS `MessageBroker.createTopic` (the emitted `topic:created` event goes to
external handlers). -/
def Broker.createTopic (b : Broker) (name createdBy : String)
    (config : TopicConfigOverride) (now : Nat) : Except TopicError (Topic × Broker) :=
  match b.topicManager.createTopic name createdBy config now with
  | .error e => .error e
  | .ok p => .ok (p.1, { b with topicManager := p.2 })

/-- TS `MessageQueue.nack` iterated `k` times on the same subscriber,
message and clock — `k` consecutive negative acknowledgments. -/
def nackIter (st : MessageQueue) (subscriberId messageId reason : String)
    (now : Nat) : Nat → MessageQueue
  | 0 => st
  | k + 1 => ((nackIter st subscriberId messageId reason now k).nack subscriberId messageId reason now).2

/-- One operation on the consumer-group manager, as named by the
membership claims. -/
inductive GroupOp
  | create (name topic : String) (strategy : LoadBalanceStrategy) (now : Nat)
  | join (groupName subscriberId clientId : String) (now : Nat)
  | leave (subscriberId : String)

/-- Apply one operation; a raised error leaves the state as it was. -/
def applyGroupOp (st : ConsumerGroupManager) : GroupOp → ConsumerGroupManager
  | .create name topic strategy now =>
    match st.createGroup name topic strategy now with
    | .ok p => p.2
    | .error _ => st
  | .join groupName subscriberId clientId now =>
    match st.joinGroup groupName subscriberId clientId now with
    | .ok p => p.2
    | .error _ => st
  | .leave subscriberId => st.leaveGroup subscriberId

/-- Apply a sequence of operations starting from a fresh manager. -/
def applyGroupOps (st : ConsumerGroupManager) (ops : List GroupOp) : ConsumerGroupManager :=
  ops.foldl applyGroupOp st

/-- Number of members of a group carrying the leader flag. -/
def leaderCount (g : ConsumerGroup) : Nat :=
  (g.members.filter (fun m => m.isLeader)).length

/-- The leader invariant: no group ever has two leaders. -/
def atMostOneLeader (st : ConsumerGroupManager) : Prop :=
  ∀ p ∈ st.groups, leaderCount p.2 ≤ 1

/-- The inductive strengthening of the leader invariant: member lists
also never repeat a subscriber id (join only appends ids not yet
present). -/
def groupLeaderInv (st : ConsumerGroupManager) : Prop :=
  ∀ p ∈ st.groups,
    List.Pairwise (fun a b : ConsumerGroupMember => a.subscriberId ≠ b.subscriberId)
      p.2.members ∧
    leaderCount p.2 ≤ 1

/-- A sink that never throws. -/
def noThrow : SinkBehavior := fun _ _ => false

/-- Run `publish` assuming it does not throw (all scenario topic names
are valid, so the error branch below is never taken). -/
def pubOk (b : Broker) (topic msgId : String) (now : Nat) : Broker × List Delivery :=
  match b.publish noThrow topic [] "p" PublishOptions.empty msgId now with
  | .ok r => (r.2.1, r.2.2)
  | .error _ => (b, [])

/-- TS `publish` accumulating the delivery log across calls. -/
def pubAcc (p : Broker × List Delivery) (topic msgId : String) (now : Nat) :
    Broker × List Delivery :=
  let r := pubOk p.1 topic msgId now
  (r.1, p.2 ++ r.2)

/-- Run `subscribe` (no filter) assuming it does not throw. -/
def subOk (b : Broker) (clientId : String) (topics : List String)
    (subscriberId : String) (now : Nat) : Broker :=
  match b.subscribe noThrow clientId topics none subscriberId now with
  | .ok r => r.2.1
  | .error _ => b

/-- A dead-lettered message used as the concrete retry scenario. -/
def c1Message : Message :=
  { id := "m1"
    topic := "t"
    payload := []
    timestamp := 0
    publisherId := "p"
    headers := []
    replyTo := none
    correlationId := none
    ttl := none }

/-- The queued form of `c1Message` after exhausting its retries. -/
def c1Queued : QueuedMessage :=
  { msg := c1Message
    subscriberId := "s1"
    queuedAt := 0
    attempts := 3
    maxRetries := 3
    nextRetryAt := none }

/-- Its dead-letter entry. -/
def c1Entry : DeadLetterMessage :=
  { qm := c1Queued
    failureReason := "handler error"
    failedAt := 5
    originalTopic := "t" }

/-- A broker whose dead-letter queue holds exactly `c1Entry`. -/
def c1Broker : Broker :=
  { Broker.new with messageQueue := { MessageQueue.empty with deadLetterQueue := [c1Entry] } }

/-- Overrides for the overflow scenario: a topic capped at 2 queued
messages per subscriber. -/
def c2Override : TopicConfigOverride :=
  { TopicConfigOverride.empty with maxQueueSize := some 2 }

/-- Overflow scenario, step 1: create topic `t` with `maxQueueSize = 2`. -/
def c2Broker0 : Broker :=
  match Broker.new.createTopic "t" "u" c2Override 0 with
  | .ok r => r.2
  | .error _ => Broker.new

/-- Step 2: one subscriber on `t`. -/
def c2Broker1 : Broker := subOk c2Broker0 "c" ["t"] "s1" 0

/-- Step 3: the subscriber goes offline. -/
def c2Broker2 : Broker := (c2Broker1.setSubscriberOnline noThrow "s1" false 1).1

/-- Step 4: publish three messages to `t` while the subscriber is
offline. -/
def c2Final : Broker :=
  (pubOk (pubOk (pubOk c2Broker2 "t" "m1" 2).1 "t" "m2" 3).1 "t" "m3" 4).1

/-- Round-robin scenario: group `g` on topic `t`, members `s1, s2, s3`
joined in that order. -/
def c3Cgm : ConsumerGroupManager :=
  let st :=
    match ConsumerGroupManager.empty.createGroup "g" "t" .roundRobin 0 with
    | .ok p => p.2
    | .error _ => ConsumerGroupManager.empty
  let st := match st.joinGroup "g" "s1" "c1" 0 with | .ok p => p.2 | .error _ => st
  let st := match st.joinGroup "g" "s2" "c2" 0 with | .ok p => p.2 | .error _ => st
  match st.joinGroup "g" "s3" "c3" 0 with | .ok p => p.2 | .error _ => st

/-- The broker for the round-robin scenario: `s1, s2, s3` all online and
individually subscribed to `t`. -/
def c3Broker : Broker :=
  let b :=
    match Broker.new.createTopic "t" "u" TopicConfigOverride.empty 0 with
    | .ok r => r.2
    | .error _ => Broker.new
  subOk (subOk (subOk b "c1" ["t"] "s1" 0) "c2" ["t"] "s2" 0) "c3" ["t"] "s3" 0

/-- Publish six messages to `t`, accumulating the delivery log. -/
def c3PubAll : Broker × List Delivery :=
  pubAcc (pubAcc (pubAcc (pubAcc (pubAcc (pubAcc (c3Broker, []) "t" "m1" 1)
    "t" "m2" 2) "t" "m3" 3) "t" "m4" 4) "t" "m5" 5) "t" "m6" 6

/-- Six successive draws of `getNextSubscriber` on the scenario group:
what the round-robin strategy would choose, were it consulted. -/
def c3Draws : List (Option String) :=
  let d1 := c3Cgm.getNextSubscriber "g" c1Message 0
  let d2 := d1.2.getNextSubscriber "g" c1Message 0
  let d3 := d2.2.getNextSubscriber "g" c1Message 0
  let d4 := d3.2.getNextSubscriber "g" c1Message 0
  let d5 := d4.2.getNextSubscriber "g" c1Message 0
  let d6 := d5.2.getNextSubscriber "g" c1Message 0
  [d1.1, d2.1, d3.1, d4.1, d5.1, d6.1]

/-- Wildcard scenario: one subscriber `mon` on the literal topic `"#"`. -/
def c8Broker : Broker := subOk Broker.new "mon" ["#"] "mon1" 0

/-- Publish to `a.b` and then to `c`, accumulating the delivery log. -/
def c8Pubs : Broker × List Delivery :=
  pubAcc (pubAcc (c8Broker, []) "a.b" "m1" 1) "c" "m2" 2

/-! Generic lemmas about the JS `Map` model. -/

theorem alookup_aset_self {α : Type} (l : List (String × α)) (k : String) (v : α) :
    alookup (aset l k v) k = some v := by
  unfold alookup aset
  split
  · rename_i h
    rw [Option.isSome_iff_exists] at h
    obtain ⟨p0, hp0⟩ := h
    have hpred := List.find?_some hp0
    simp only [] at hpred
    rw [List.find?_map]
    have hcomp : ((fun p : String × α => p.1 == k) ∘ fun p : String × α =>
        if p.1 == k then (k, v) else p) = fun p : String × α => p.1 == k := by
      funext a
      by_cases hk : (a.1 == k) = true <;> simp [Function.comp, hk]
    rw [hcomp, hp0]
    have hp0k : p0.1 = k := by simpa using hpred
    simp [hp0k]
  · rename_i h
    rw [List.find?_append]
    have hnone : l.find? (fun p => p.1 == k) = none := by
      cases hf : l.find? (fun p => p.1 == k) with
      | none => rfl
      | some x => rw [hf] at h; simp at h
    simp [hnone]

theorem alookup_aset_ne {α : Type} (l : List (String × α)) (k k' : String) (v : α)
    (hne : k' ≠ k) : alookup (aset l k v) k' = alookup l k' := by
  unfold alookup aset
  split
  · rw [List.find?_map]
    have hcomp : ((fun p : String × α => p.1 == k') ∘ fun p : String × α =>
        if p.1 == k then (k, v) else p) = fun p : String × α => p.1 == k' := by
      funext a
      by_cases hk : (a.1 == k) = true
      · have : a.1 = k := by simpa using hk
        simp [Function.comp, hk, this]
      · simp [Function.comp, hk]
    rw [hcomp]
    cases hf : l.find? (fun p => p.1 == k') with
    | none => simp
    | some x =>
      have hx := List.find?_some hf
      have hx' : x.1 = k' := by simpa using hx
      simp only [hf, Option.map_some']
      rw [hx']
      simp [hne]
  · rw [List.find?_append]
    have : List.find? (fun p : String × α => p.1 == k') [(k, v)] = none := by
      simp [Ne.symm hne]
    rw [this]
    cases l.find? (fun p : String × α => p.1 == k') <;> simp

theorem mem_aset {α : Type} {l : List (String × α)} {k : String} {v : α}
    {q : String × α} (hq : q ∈ aset l k v) : q = (k, v) ∨ q ∈ l := by
  unfold aset at hq
  split at hq
  · rw [List.mem_map] at hq
    obtain ⟨p, hp, hfp⟩ := hq
    by_cases hk : (p.1 == k) = true
    · left; rw [← hfp]; simp [hk]
    · right; rw [← hfp]; simpa [hk] using hp
  · rw [List.mem_append] at hq
    cases hq with
    | inl h => exact Or.inr h
    | inr h => left; simpa using h

/-- C1: the claim says `retryDeadLetter(messageId)` re-routes the
original message with attempts reset to 0, removes the dead-letter entry
and returns true whenever an entry with that id exists.  In the code the
guard reads the `message` property, which no dead-letter entry carries,
so with an entry of id `"m1"` present the call returns false, re-routes
nothing and leaves the whole broker state (the entry included)
unchanged. -/
theorem retryDeadLetter_returns_false_despite_matching_entry :
    c1Broker.messageQueue.deadLetterQueue.any (fun m => m.qm.msg.id == "m1") = true ∧
    (c1Broker.retryDeadLetter noThrow "m1" 10).1 = false ∧
    (c1Broker.retryDeadLetter noThrow "m1" 10).2.1 = c1Broker ∧
    (c1Broker.retryDeadLetter noThrow "m1" 10).2.2 = [] :=
  ⟨rfl, rfl, rfl, rfl⟩

/-- C2: the claim says a subscriber's queue never exceeds the topic's
configured `maxQueueSize` and that overflow evicts the oldest message
into the DLQ.  The broker constructs its `MessageQueue` with the default
cap of 10000 and never passes the topic configuration down, so with a
topic configured with `maxQueueSize = 2` and an offline subscriber,
publishing three messages leaves queue depth 3 and an empty dead-letter
queue (the claim expects depth 2 and exactly one DLQ entry). -/
theorem topic_maxQueueSize_not_enforced :
    ((c2Broker0.topicManager.getTopic "t").map (fun t => t.config.maxQueueSize)) = some 2 ∧
    c2Final.messageQueue.getQueueDepth "s1" = 3 ∧
    c2Final.messageQueue.deadLetterQueue = [] ∧
    c2Final.messageQueue.maxQueueSize = 10000 :=
  ⟨rfl, by decide, by decide, by decide⟩

/-- C3: the claim says routing delivers to the single group member chosen
by the group's strategy when a matching subscriber belongs to a consumer
group bound to the topic.  `routeMessage` never consults the
`ConsumerGroupManager`: with a round-robin group `g` on `t` whose members
`s1, s2, s3` joined in that order (and would be drawn in the interleaved
order the claim expects, as the selection trace shows), publishing six
messages delivers every message to all three members — 6 deliveries each
instead of the claimed 2. -/
theorem routing_ignores_consumer_groups :
    (alookup c3Cgm.groups "g").map
        (fun g => (g.topic, g.strategy, g.members.map (fun m => m.subscriberId)))
      = some ("t", LoadBalanceStrategy.roundRobin, ["s1", "s2", "s3"]) ∧
    c3Draws = [some "s1", some "s2", some "s3", some "s1", some "s2", some "s3"] ∧
    (c3PubAll.2.filter (fun d => d.1 == "s1")).length = 6 ∧
    (c3PubAll.2.filter (fun d => d.1 == "s2")).length = 6 ∧
    (c3PubAll.2.filter (fun d => d.1 == "s3")).length = 6 :=
  ⟨rfl, rfl, by decide, by decide, by decide⟩

/-- C6 counterexample: the empty topic name contains no character outside
the allowed set and is not already in use, so by the claim `createTopic`
should return a topic with the default configuration — but the code
rejects it with the `InvalidName` error, because the validation pattern
also requires at least one character. -/
theorem createTopic_rejects_empty_name :
    TopicManager.empty.hasTopic "" = false ∧
    "".data.all isAllowedTopicChar = true ∧
    TopicManager.empty.createTopic "" "u" TopicConfigOverride.empty 0 =
      .error .invalidName :=
  ⟨rfl, rfl, rfl⟩

/-- C6 (amended): `createTopic` fails with `AlreadyExists` when the name
is in use; fails with `InvalidName` when the name is empty or contains a
character outside alphanumerics, `.`, `-`, `_`, `*`, `#`; and otherwise
returns a topic whose configuration equals the defaults
`maxQueueSize = 1000`, `messageRetention = 3600000`, `maxRetries = 3`,
`retryDelay = 5000`, `requireAck = false` overlaid with the given
overrides. -/
theorem createTopic_spec (tm : TopicManager) (name createdBy : String)
    (config : TopicConfigOverride) (now : Nat) :
    (tm.hasTopic name = true →
      tm.createTopic name createdBy config now = .error .alreadyExists) ∧
    (tm.hasTopic name = false →
      (name = "" ∨ ∃ c ∈ name.data, isAllowedTopicChar c = false) →
      tm.createTopic name createdBy config now = .error .invalidName) ∧
    (tm.hasTopic name = false → name ≠ "" →
      (∀ c ∈ name.data, isAllowedTopicChar c = true) →
      ∃ tm', tm.createTopic name createdBy config now = .ok
        ({ name := name
           createdAt := now
           createdBy := createdBy
           messageCount := 0
           subscriberCount := 0
           config :=
             { maxQueueSize := config.maxQueueSize.getD 1000
               messageRetention := config.messageRetention.getD 3600000
               maxRetries := config.maxRetries.getD 3
               retryDelay := config.retryDelay.getD 5000
               requireAck := config.requireAck.getD false } }, tm')) := by
  refine ⟨?_, ?_, ?_⟩
  · intro h
    unfold TopicManager.hasTopic at h
    unfold TopicManager.createTopic
    simp [h]
  · intro h1 h2
    unfold TopicManager.hasTopic at h1
    have hval : isValidTopicName name = false := by
      unfold isValidTopicName
      cases h2 with
      | inl he => subst he; simp
      | inr hc =>
        obtain ⟨c, hc1, hc2⟩ := hc
        have hall : name.data.all isAllowedTopicChar = false :=
          List.all_eq_false.mpr ⟨c, hc1, by simp [hc2]⟩
        simp [hall]
    unfold TopicManager.createTopic
    simp [h1, hval]
  · intro h1 h2 h3
    unfold TopicManager.hasTopic at h1
    have hlen : 0 < name.length := by
      obtain ⟨data⟩ := name
      cases data with
      | nil => exact absurd rfl h2
      | cons c cs => simp [String.length]
    have hval : isValidTopicName name = true := by
      unfold isValidTopicName
      simp [hlen, List.all_eq_true.mpr h3]
    unfold TopicManager.createTopic
    simp [h1, hval]
    rfl

/-- C6 witness: on a fresh manager, creating topic `a` with no overrides
succeeds with exactly the default configuration. -/
theorem createTopic_spec_witness :
    TopicManager.empty.hasTopic "a" = false ∧
    ∃ tm', TopicManager.empty.createTopic "a" "u" TopicConfigOverride.empty 0 = .ok
      ({ name := "a"
         createdAt := 0
         createdBy := "u"
         messageCount := 0
         subscriberCount := 0
         config :=
           { maxQueueSize := 1000
             messageRetention := 3600000
             maxRetries := 3
             retryDelay := 5000
             requireAck := false } }, tm') :=
  ⟨rfl, (createTopic_spec TopicManager.empty "a" "u" TopicConfigOverride.empty 0).2.2
    rfl (by decide) (by decide)⟩

/-- C7: `dequeue` returns and removes the first message whose
`nextRetryAt` is unset or has passed, leaving the relative order of all
other messages unchanged (the result queue is the prefix before it plus
the suffix after it); it returns none and leaves the state unchanged when
the queue is absent or no message is ready (which covers the empty
queue). -/
theorem dequeue_spec (st : MessageQueue) (subscriberId : String) (now : Nat) :
    (alookup st.queues subscriberId = none →
      st.dequeue subscriberId now = (none, st)) ∧
    (∀ q, alookup st.queues subscriberId = some q →
      (∀ m ∈ q, m.isReady now = false) →
      st.dequeue subscriberId now = (none, st)) ∧
    (∀ q i m, alookup st.queues subscriberId = some q →
      ∀ hi : i < q.length, q.get ⟨i, hi⟩ = m → m.isReady now = true →
      (∀ j (hj : j < i), (q.get ⟨j, Nat.lt_trans hj hi⟩).isReady now = false) →
      st.dequeue subscriberId now =
        (some m, { st with
          queues := aset st.queues subscriberId (q.take i ++ q.drop (i + 1)) })) := by
  refine ⟨?_, ?_, ?_⟩
  · intro h
    unfold MessageQueue.dequeue
    rw [h]
  · intro q hq hnone
    unfold MessageQueue.dequeue
    rw [hq]
    by_cases hemp : q.isEmpty
    · simp [hemp]
    · simp only [hemp, Bool.false_eq_true, if_false]
      rw [List.findIdx?_eq_none_iff.mpr hnone]
  · intro q i m hq hi hm hready hbefore
    unfold MessageQueue.dequeue
    rw [hq]
    have hemp : q.isEmpty = false := by
      rw [List.isEmpty_eq_false]
      intro hnil
      rw [hnil] at hi
      exact absurd hi (by simp)
    simp only [hemp, Bool.false_eq_true, if_false]
    have hfind : q.findIdx? (fun x => x.isReady now) = some i := by
      rw [List.findIdx?_eq_some_iff_getElem]
      refine ⟨hi, ?_, ?_⟩
      · rw [show q[i] = m from by rw [← hm]; simp]
        exact hready
      · intro j hj
        have := hbefore j hj
        simp only [List.get_eq_getElem] at this
        simp [this]
    rw [hfind]
    have hget : q.get? i = some m := by
      rw [List.get?_eq_getElem?, List.getElem?_eq_getElem hi]
      rw [show q[i] = m from by rw [← hm]; simp]
    simp only [hget, Option.getD_some, List.eraseIdx_eq_take_drop_succ]

/-- C7 witness: a two-message queue whose front message is awaiting
backoff and whose second message is ready — dequeue skips the first and
returns the second, leaving the first in place. -/
theorem dequeue_spec_witness :
    ({ MessageQueue.empty with
      queues := [("s1", [{ c1Queued with nextRetryAt := some 50 },
                         { c1Queued with msg := { c1Message with id := "m2" } }])] }
        : MessageQueue).dequeue "s1" 10 =
      (some { c1Queued with msg := { c1Message with id := "m2" } },
        { MessageQueue.empty with
          queues := [("s1", [{ c1Queued with nextRetryAt := some 50 }])] }) := by
  have h := (dequeue_spec
    ({ MessageQueue.empty with
      queues := [("s1", [{ c1Queued with nextRetryAt := some 50 },
                         { c1Queued with msg := { c1Message with id := "m2" } }])] })
    "s1" 10).2.2
    [{ c1Queued with nextRetryAt := some 50 },
     { c1Queued with msg := { c1Message with id := "m2" } }] 1
    ({ c1Queued with msg := { c1Message with id := "m2" } })
    rfl Nat.one_lt_two rfl rfl
    (by
      intro j hj
      have hj0 : j = 0 := by omega
      subst hj0
      rfl)
  exact h

/-- C10: `ack` and `nack` return false when the subscriber has no queue
or when no queued message carries the requested id, and in both cases the
entire queue state — every subscriber queue and the dead-letter queue —
is returned unchanged. -/
theorem ack_nack_error_atomicity (st : MessageQueue)
    (subscriberId messageId reason : String) (now : Nat) :
    (alookup st.queues subscriberId = none →
      st.ack subscriberId messageId = (false, st) ∧
      st.nack subscriberId messageId reason now = (false, st)) ∧
    (∀ q, alookup st.queues subscriberId = some q →
      (∀ m ∈ q, m.msg.id ≠ messageId) →
      st.ack subscriberId messageId = (false, st) ∧
      st.nack subscriberId messageId reason now = (false, st)) := by
  constructor
  · intro h
    constructor
    · unfold MessageQueue.ack
      rw [h]
    · unfold MessageQueue.nack
      rw [h]
  · intro q hq hid
    have hfind : q.findIdx? (fun x => x.msg.id == messageId) = none := by
      rw [List.findIdx?_eq_none_iff]
      intro x hx
      simp [hid x hx]
    constructor
    · unfold MessageQueue.ack
      rw [hq]
      simp [hfind]
    · unfold MessageQueue.nack
      rw [hq]
      simp [hfind]

/-- C10 witness: with a queue for `s1` holding only message `m1`, acking
or nacking the unknown id `zz` fails and changes nothing, as does acking
or nacking for the unknown subscriber `s9`. -/
theorem ack_nack_error_atomicity_witness :
    ({ MessageQueue.empty with queues := [("s1", [c1Queued])] } : MessageQueue).ack
        "s1" "zz" =
      (false, { MessageQueue.empty with queues := [("s1", [c1Queued])] }) ∧
    ({ MessageQueue.empty with queues := [("s1", [c1Queued])] } : MessageQueue).nack
        "s9" "m1" "r" 7 =
      (false, { MessageQueue.empty with queues := [("s1", [c1Queued])] }) :=
  ⟨((ack_nack_error_atomicity
      ({ MessageQueue.empty with queues := [("s1", [c1Queued])] }) "s1" "zz" "r" 7).2
      [c1Queued] rfl (by decide)).1,
   ((ack_nack_error_atomicity
      ({ MessageQueue.empty with queues := [("s1", [c1Queued])] }) "s9" "m1" "r" 7).1
      rfl).2⟩

/-- The position of the first element satisfying a predicate is stable
under replacing that element by another satisfying element. -/
theorem findIdx?_set_of_pred {α : Type} [Inhabited α] {p : α → Bool} {q : List α}
    {i : Nat} (hfind : q.findIdx? p = some i) {m' : α} (hp : p m' = true) :
    (q.set i m').findIdx? p = some i := by
  rw [List.findIdx?_eq_some_iff_getElem] at hfind ⊢
  obtain ⟨hi, hpi, hbef⟩ := hfind
  refine ⟨by simpa using hi, ?_, ?_⟩
  · rw [List.getElem_set_self]
    exact hp
  · intro j hj
    rw [List.getElem_set_ne (by omega)]
    exact hbef j hj

/-- The retry branch of `nack` in one step: below the retry cap, the
attempt counter is bumped and the backoff schedule written in place. -/
theorem nack_retry_step (st : MessageQueue) (subscriberId messageId reason : String)
    (now : Nat) (q : List QueuedMessage) (i : Nat) (m : QueuedMessage)
    (hq : alookup st.queues subscriberId = some q)
    (hfind : q.findIdx? (fun x => x.msg.id == messageId) = some i)
    (hget : q.get? i = some m)
    (hlt : m.attempts + 1 < m.maxRetries) :
    st.nack subscriberId messageId reason now =
      (true, { st with queues := (aset st.queues subscriberId
            (q.set i { m with attempts := m.attempts + 1, nextRetryAt := some (now + min (1000 * 2 ^ (m.attempts + 1)) 60000) })) }) := by
  unfold MessageQueue.nack
  rw [hq]
  simp only [hfind, hget, Option.getD_some]
  rw [if_neg (by omega)]

/-- The dead-letter branch of `nack` in one step: at the retry cap, the
message is removed from the queue and appended (with the bumped counter)
to the dead-letter queue, which is trimmed to its cap. -/
theorem nack_dlq_step (st : MessageQueue) (subscriberId messageId reason : String)
    (now : Nat) (q : List QueuedMessage) (i : Nat) (m : QueuedMessage)
    (hq : alookup st.queues subscriberId = some q)
    (hfind : q.findIdx? (fun x => x.msg.id == messageId) = some i)
    (hget : q.get? i = some m)
    (hge : m.attempts + 1 ≥ m.maxRetries) :
    st.nack subscriberId messageId reason now =
      (true, ({ st with queues := aset st.queues subscriberId (q.eraseIdx i) }
          : MessageQueue).moveToDeadLetter { m with attempts := m.attempts + 1 } reason now) := by
  unfold MessageQueue.nack
  rw [hq]
  simp only [hfind, hget, Option.getD_some]
  rw [if_pos (by omega)]

/-- After `k` consecutive nacks (all below the retry cap) on a message
that started with zero attempts, the queue holds the message in place
with `attempts = k` and `nextRetryAt = now + min(1000·2^k, 60000)`. -/
theorem nackIter_retry (st : MessageQueue) (subscriberId messageId reason : String)
    (now : Nat) (q : List QueuedMessage) (i : Nat) (m : QueuedMessage)
    (hq : alookup st.queues subscriberId = some q)
    (hfind : q.findIdx? (fun x => x.msg.id == messageId) = some i)
    (hget : q.get? i = some m) (hm : m.attempts = 0) :
    ∀ k, 1 ≤ k → k < m.maxRetries →
      alookup (nackIter st subscriberId messageId reason now k).queues subscriberId =
        some (q.set i { m with attempts := k, nextRetryAt := some (now + min (1000 * 2 ^ k) 60000) }) := by
  have hi : i < q.length := by
    obtain ⟨h, -⟩ := List.get?_eq_some.mp hget
    exact h
  have hpm : (fun x : QueuedMessage => x.msg.id == messageId) m = true := by
    rw [List.findIdx?_eq_some_iff_getElem] at hfind
    obtain ⟨hi', hpi, -⟩ := hfind
    have : q[i] = m := by
      have := List.getElem?_eq_some_iff.mpr ⟨hi, rfl⟩
      rw [List.get?_eq_getElem?] at hget
      rw [List.getElem?_eq_getElem hi] at hget
      simpa using hget
    rwa [this] at hpi
  intro k
  induction k with
  | zero => intro h1 _; omega
  | succ k ih =>
    intro _ hcap
    by_cases hk1 : 1 ≤ k
    · -- later steps: the queue already holds the k-times-nacked message
      have hprev := ih hk1 (by omega)
      have hfind' : ((q.set i { m with attempts := k, nextRetryAt := some (now + min (1000 * 2 ^ k) 60000) }).findIdx? (fun x => x.msg.id == messageId)) = some i :=
        findIdx?_set_of_pred hfind hpm
      have hget' : (q.set i { m with attempts := k, nextRetryAt := some (now + min (1000 * 2 ^ k) 60000) }).get? i = some { m with attempts := k, nextRetryAt := some (now + min (1000 * 2 ^ k) 60000) } := by
        rw [List.get?_eq_getElem?, List.getElem?_eq_getElem (by simpa using hi)]
        rw [List.getElem_set_self]
      have hstep := nack_retry_step (nackIter st subscriberId messageId reason now k)
        subscriberId messageId reason now _ i _ hprev hfind' hget' (by simpa using hcap)
      show alookup (((nackIter st subscriberId messageId reason now k).nack
        subscriberId messageId reason now).2).queues subscriberId = _
      rw [hstep]
      simp only []
      rw [alookup_aset_self, List.set_set]
    · -- first step: k = 0
      have hk0 : k = 0 := by omega
      subst hk0
      have hstep := nack_retry_step st subscriberId messageId reason now q i m
        hq hfind hget (by omega)
      show alookup ((st.nack subscriberId messageId reason now).2).queues subscriberId = _
      rw [hstep]
      simp only []
      rw [alookup_aset_self]
      rw [hm]

/-- C4: `nack` increments the attempt counter of the queued message with
the given id; when the incremented count reaches `maxRetries` the message
is removed from the queue and promoted to the dead-letter queue,
otherwise its `nextRetryAt` is set to `now + min(1000·2^attempts, 60000)`
(with `attempts` the incremented count); and after `k` consecutive nacks
with `k < maxRetries` on a message that started at zero attempts, the
scheduled delay from `now` is `min(1000·2^k, 60000)`. -/
theorem nack_spec (st : MessageQueue) (subscriberId messageId reason : String)
    (now : Nat) (q : List QueuedMessage) (i : Nat) (m : QueuedMessage)
    (hq : alookup st.queues subscriberId = some q)
    (hfind : q.findIdx? (fun x => x.msg.id == messageId) = some i)
    (hget : q.get? i = some m) :
    (m.attempts + 1 ≥ m.maxRetries →
      st.nack subscriberId messageId reason now =
        (true, ({ st with queues := aset st.queues subscriberId (q.eraseIdx i) }
            : MessageQueue).moveToDeadLetter { m with attempts := m.attempts + 1 } reason now)) ∧
    (m.attempts + 1 < m.maxRetries →
      st.nack subscriberId messageId reason now =
        (true, { st with queues := (aset st.queues subscriberId
            (q.set i { m with attempts := m.attempts + 1, nextRetryAt := some (now + min (1000 * 2 ^ (m.attempts + 1)) 60000) })) })) ∧
    (∀ k, m.attempts = 0 → 1 ≤ k → k < m.maxRetries →
      ∃ q', alookup (nackIter st subscriberId messageId reason now k).queues subscriberId = some q' ∧
        q'.get? i = some { m with attempts := k, nextRetryAt := some (now + min (1000 * 2 ^ k) 60000) }) := by
  refine ⟨fun h => nack_dlq_step st subscriberId messageId reason now q i m hq hfind hget h,
          fun h => nack_retry_step st subscriberId messageId reason now q i m hq hfind hget h,
          ?_⟩
  intro k hm h1 hk
  refine ⟨_, nackIter_retry st subscriberId messageId reason now q i m hq hfind hget hm k h1 hk, ?_⟩
  have hi : i < q.length := by
    obtain ⟨h, -⟩ := List.get?_eq_some.mp hget
    exact h
  rw [List.get?_eq_getElem?, List.getElem?_eq_getElem (by simpa using hi)]
  rw [List.getElem_set_self]

/-- C4 witness: a fresh message with `maxRetries = 3` nacked twice at
time 100 ends up scheduled at `100 + min(1000·2², 60000) = 4100` with two
attempts recorded. -/
theorem nack_spec_witness :
    ∃ q', alookup (nackIter
        ({ MessageQueue.empty with queues := [("s1", [{ c1Queued with attempts := 0 }])] })
        "s1" "m1" "boom" 100 2).queues "s1" = some q' ∧
      q'.get? 0 = some { c1Queued with attempts := 2, nextRetryAt := some (100 + min (1000 * 2 ^ 2) 60000) } :=
  (nack_spec
    ({ MessageQueue.empty with queues := [("s1", [{ c1Queued with attempts := 0 }])] })
    "s1" "m1" "boom" 100 [{ c1Queued with attempts := 0 }] 0
    ({ c1Queued with attempts := 0 }) rfl rfl rfl).2.2 2 rfl (by decide) (by decide)

/-- Every element surviving the front-trim of the retention loop is at
least as new as the cutoff, provided the list was sorted by timestamp. -/
theorem mem_dropWhile_cutoff (cutoff : Nat) :
    ∀ l : List Message, List.Pairwise (fun a b => a.timestamp ≤ b.timestamp) l →
      ∀ m ∈ l.dropWhile (fun x => x.timestamp < cutoff), cutoff ≤ m.timestamp := by
  intro l
  induction l with
  | nil => intro _ m hm; simp [List.dropWhile] at hm
  | cons a t ih =>
    intro hp m hm
    rw [List.dropWhile_cons] at hm
    by_cases ha : a.timestamp < cutoff
    · simp [ha] at hm
      exact ih hp.of_cons m hm
    · simp [ha] at hm
      cases List.mem_cons.mp (List.mem_cons.mpr hm) with
      | inl h => subst h; omega
      | inr h =>
        have := (List.pairwise_cons.mp hp).1 m h
        omega

/-- The length-cap loop leaves at most `maxH` elements. -/
theorem trimToMax_length_le (maxH : Nat) :
    ∀ l : List Message, (trimToMax maxH l).length ≤ maxH := by
  intro l
  induction l with
  | nil => simp [trimToMax]
  | cons a t ih =>
    unfold trimToMax
    by_cases h : (a :: t).length > maxH
    · simp only [h, if_true]
      exact ih
    · simp only [h, if_false]
      omega

/-- The length-cap loop only removes elements. -/
theorem mem_trimToMax (maxH : Nat) :
    ∀ (l : List Message) (m : Message), m ∈ trimToMax maxH l → m ∈ l := by
  intro l
  induction l with
  | nil => intro m hm; simp [trimToMax] at hm
  | cons a t ih =>
    intro m hm
    unfold trimToMax at hm
    by_cases h : (a :: t).length > maxH
    · simp only [h, if_true] at hm
      exact List.mem_cons_of_mem a (ih m hm)
    · simpa only [h, if_false] using hm

/-- C5: `recordMessage` on an existing topic increments its message
counter, appends the message to the history, trims the front while older
than `now − messageRetention`, then trims the front while longer than
1000 — leaving a history of at most 1000 messages none of which is older
than the retention cutoff (given the history timestamps were
nondecreasing, as successive `Date.now()` stamps are). -/
theorem recordMessage_spec (tm : TopicManager) (message : Message) (now : Nat)
    (topic : Topic) (htopic : alookup tm.topics message.topic = some topic)
    (hsorted : List.Pairwise (fun a b => a.timestamp ≤ b.timestamp)
      (((alookup tm.messageHistory message.topic).getD []) ++ [message])) :
    ∃ h', alookup (tm.recordMessage message now).messageHistory message.topic = some h' ∧
      h' = trimToMax 1000 ((((alookup tm.messageHistory message.topic).getD []) ++
        [message]).dropWhile (fun x => x.timestamp < now - topic.config.messageRetention)) ∧
      h'.length ≤ 1000 ∧
      (∀ x ∈ h', now - topic.config.messageRetention ≤ x.timestamp) ∧
      alookup (tm.recordMessage message now).topics message.topic =
        some { topic with messageCount := topic.messageCount + 1 } := by
  unfold TopicManager.recordMessage
  rw [htopic]
  refine ⟨_, alookup_aset_self _ _ _, rfl, trimToMax_length_le 1000 _, ?_, ?_⟩
  · intro x hx
    exact mem_dropWhile_cutoff _ _ hsorted x (mem_trimToMax 1000 _ x hx)
  · exact alookup_aset_self _ _ _

/-- C5 witness: recording a message stamped 50 at time 60 on a topic with
retention 30 drops an old message stamped 10 from the history and keeps
the new one, incrementing the counter. -/
theorem recordMessage_spec_witness :
    ∃ h', alookup ((({ TopicManager.empty with
        topics := [("t", { name := "t", createdAt := 0, createdBy := "u", messageCount := 7, subscriberCount := 0, config := { createTopicDefaultConfig with messageRetention := 30 } })]
        messageHistory := [("t", [{ c1Message with id := "m0", timestamp := 10 }])] }
          : TopicManager).recordMessage { c1Message with timestamp := 50 } 60)).messageHistory "t" = some h' ∧
      h' = trimToMax 1000 (([{ c1Message with id := "m0", timestamp := 10 },
        { c1Message with timestamp := 50 }]).dropWhile (fun x => x.timestamp < 60 - 30)) ∧
      h'.length ≤ 1000 ∧
      (∀ x ∈ h', 60 - 30 ≤ x.timestamp) ∧
      alookup ((({ TopicManager.empty with
        topics := [("t", { name := "t", createdAt := 0, createdBy := "u", messageCount := 7, subscriberCount := 0, config := { createTopicDefaultConfig with messageRetention := 30 } })]
        messageHistory := [("t", [{ c1Message with id := "m0", timestamp := 10 }])] }
          : TopicManager).recordMessage { c1Message with timestamp := 50 } 60)).topics "t" =
        some { name := "t", createdAt := 0, createdBy := "u", messageCount := 8, subscriberCount := 0, config := { createTopicDefaultConfig with messageRetention := 30 } } :=
  recordMessage_spec
    ({ TopicManager.empty with
      topics := [("t", { name := "t", createdAt := 0, createdBy := "u", messageCount := 7, subscriberCount := 0, config := { createTopicDefaultConfig with messageRetention := 30 } })]
      messageHistory := [("t", [{ c1Message with id := "m0", timestamp := 10 }])] })
    ({ c1Message with timestamp := 50 }) 60
    ({ name := "t", createdAt := 0, createdBy := "u", messageCount := 7, subscriberCount := 0, config := { createTopicDefaultConfig with messageRetention := 30 } })
    rfl (by decide)

/-- A successful lookup exhibits the entry in the association list. -/
theorem mem_of_alookup_eq_some {α : Type} {l : List (String × α)} {k : String}
    {v : α} (h : alookup l k = some v) : (k, v) ∈ l := by
  unfold alookup at h
  cases hf : l.find? (fun p => p.1 == k) with
  | none => rw [hf] at h; simp at h
  | some p =>
    rw [hf] at h
    simp only [Option.map_some', Option.some.injEq] at h
    have hm := List.mem_of_find?_eq_some hf
    have hk := List.find?_some hf
    have hk' : p.1 = k := by simpa using hk
    have : p = (k, v) := by
      cases p
      simp only [Prod.mk.injEq]
      exact ⟨hk', h⟩
    rwa [this] at hm

/-- Mapping over an enumeration with a function that preserves a
projection preserves the projected list. -/
theorem map_of_map_enumFrom {β : Type} (g : ConsumerGroupMember → β)
    (f : Nat × ConsumerGroupMember → ConsumerGroupMember)
    (hf : ∀ p, g (f p) = g p.2) :
    ∀ (n : Nat) (l : List ConsumerGroupMember),
      ((l.enumFrom n).map f).map g = l.map g := by
  intro n l
  induction l generalizing n with
  | nil => rfl
  | cons a t ih => simp [List.enumFrom_cons, hf, ih]

/-- Rebalancing only rewrites partition assignments: it preserves every
member's subscriber id and leader flag, in order. -/
theorem rebalanceMembers_fields (members : List ConsumerGroupMember) :
    (rebalanceMembers members).map (fun m => (m.subscriberId, m.isLeader)) =
      members.map (fun m => (m.subscriberId, m.isLeader)) := by
  unfold rebalanceMembers
  by_cases h : (members.length == 0) = true
  · rw [if_pos h]
  · rw [if_neg h]
    exact map_of_map_enumFrom (fun m => (m.subscriberId, m.isLeader))
      (fun p => { p.2 with assignedPartitions := (List.range (16 / members.length + (if p.1 < 16 % members.length then 1 else 0))).map (fun j => p.1 * (16 / members.length) + min p.1 (16 % members.length) + j) })
      (fun p => rfl) 0 members

/-- Two member lists with equal leader-flag sequences have the same
number of leaders. -/
theorem filter_isLeader_length_eq {l₁ l₂ : List ConsumerGroupMember}
    (h : l₁.map (fun m => m.isLeader) = l₂.map (fun m => m.isLeader)) :
    (l₁.filter (fun m => m.isLeader)).length =
      (l₂.filter (fun m => m.isLeader)).length := by
  induction l₁ generalizing l₂ with
  | nil =>
    cases l₂ with
    | nil => rfl
    | cons b t => simp at h
  | cons a t ih =>
    cases l₂ with
    | nil => simp at h
    | cons b t₂ =>
      simp only [List.map_cons, List.cons.injEq] at h
      obtain ⟨hab, ht⟩ := h
      simp only [List.filter_cons]
      rw [hab]
      by_cases hb : b.isLeader <;> simp [hb, ih ht]

/-- Distinctness of subscriber ids transports along equal id
sequences. -/
theorem pairwise_subId_of_map_eq {l₁ l₂ : List ConsumerGroupMember}
    (h : l₁.map (fun m => m.subscriberId) = l₂.map (fun m => m.subscriberId))
    (hp : List.Pairwise (fun a b => a.subscriberId ≠ b.subscriberId) l₂) :
    List.Pairwise (fun a b => a.subscriberId ≠ b.subscriberId) l₁ := by
  have h1 : List.Pairwise (fun a b : String => a ≠ b)
      (l₁.map (fun m => m.subscriberId)) := by
    rw [h]
    exact (List.pairwise_map).mpr hp
  exact (List.pairwise_map).mp h1

/-- The pair-map equality splits into its two component maps. -/
theorem fields_eq_components {l₁ l₂ : List ConsumerGroupMember}
    (h : l₁.map (fun m => (m.subscriberId, m.isLeader)) =
      l₂.map (fun m => (m.subscriberId, m.isLeader))) :
    l₁.map (fun m => m.subscriberId) = l₂.map (fun m => m.subscriberId) ∧
    l₁.map (fun m => m.isLeader) = l₂.map (fun m => m.isLeader) := by
  constructor
  · have := congrArg (List.map Prod.fst) h
    simpa [List.map_map, Function.comp] using this
  · have := congrArg (List.map Prod.snd) h
    simpa [List.map_map, Function.comp] using this

/-- Removing the element at a position splits the leader count into the
remainder plus that element's contribution. -/
theorem filter_isLeader_length_eraseIdx (l : List ConsumerGroupMember) (i : Nat)
    (hi : i < l.length) :
    (l.filter (fun m => m.isLeader)).length =
      ((l.eraseIdx i).filter (fun m => m.isLeader)).length +
        (if l[i].isLeader then 1 else 0) := by
  conv_lhs => rw [← List.take_append_drop i l, List.drop_eq_getElem_cons hi]
  rw [List.eraseIdx_eq_take_drop_succ]
  simp only [List.filter_append, List.length_append, List.filter_cons]
  by_cases h : l[i].isLeader = true
  · simp [h]
    omega
  · simp [h]

/-- The heartbeat-refresh branch of `joinGroup` preserves every member's
subscriber id and leader flag, provided subscriber ids are distinct. -/
theorem refresh_map_fields (members : List ConsumerGroupMember)
    (member : ConsumerGroupMember) (subId : String) (now : Nat)
    (hfound : members.find? (fun m => m.subscriberId == subId) = some member)
    (hdistinct : List.Pairwise (fun a b => a.subscriberId ≠ b.subscriberId) members) :
    (members.map (fun m => if m.subscriberId == subId then
        { member with lastHeartbeat := now } else m)).map
        (fun m => (m.subscriberId, m.isLeader)) =
      members.map (fun m => (m.subscriberId, m.isLeader)) := by
  induction members with
  | nil => simp at hfound
  | cons a t ih =>
    rw [List.pairwise_cons] at hdistinct
    obtain ⟨ha, ht⟩ := hdistinct
    by_cases ham : (a.subscriberId == subId) = true
    · rw [@List.find?_cons_of_pos _ (fun m => m.subscriberId == subId) a t ham] at hfound
      have hma : member = a := by
        have := Option.some.inj hfound
        exact this.symm
      have haz : a.subscriberId = subId := by simpa using ham
      have htail : ∀ m ∈ t, ¬((m.subscriberId == subId) = true) := by
        intro m hm hmm
        have hmz : m.subscriberId = subId := by simpa using hmm
        exact (ha m hm) (haz.trans hmz.symm)
      simp only [List.map_cons, ham, if_true]
      have htmap : t.map (fun m => if m.subscriberId == subId then
          { member with lastHeartbeat := now } else m) = t := by
        have : t.map (fun m => if m.subscriberId == subId then
            { member with lastHeartbeat := now } else m) = t.map id :=
          List.map_congr_left (fun m hm => by rw [if_neg (htail m hm)]; rfl)
        simpa using this
      rw [htmap]
      subst hma
      rfl
    · rw [@List.find?_cons_of_neg _ (fun m => m.subscriberId == subId) a t ham] at hfound
      have hrec := ih hfound ht
      simp only [List.map_cons]
      rw [if_neg ham, hrec]

/-- Rebalancing a group preserves the strengthened leader invariant. -/
theorem groupLeaderInv_rebalance (st : ConsumerGroupManager) (g : String)
    (hinv : groupLeaderInv st) : groupLeaderInv (st.rebalance g) := by
  unfold ConsumerGroupManager.rebalance
  cases hl : alookup st.groups g with
  | none => exact hinv
  | some group =>
    intro p hp
    rcases mem_aset hp with heq | hmem
    · subst heq
      have hg := hinv (g, group) (mem_of_alookup_eq_some hl)
      obtain ⟨hsub, hlead⟩ := fields_eq_components (rebalanceMembers_fields group.members)
      refine ⟨pairwise_subId_of_map_eq hsub hg.1, ?_⟩
      show ((rebalanceMembers group.members).filter (fun m => m.isLeader)).length ≤ 1
      rw [filter_isLeader_length_eq hlead]
      exact hg.2
    · exact hinv p hmem

/-- A successful `joinGroup` preserves the strengthened leader
invariant: a returning member only refreshes its heartbeat, and a new
member is leader exactly when the group was empty. -/
theorem groupLeaderInv_joinGroup (st : ConsumerGroupManager)
    (g s c : String) (now : Nat) (hinv : groupLeaderInv st) :
    ∀ member st', st.joinGroup g s c now = .ok (member, st') →
      groupLeaderInv st' := by
  intro member st' hok
  unfold ConsumerGroupManager.joinGroup at hok
  cases hl : alookup st.groups g with
  | none =>
    rw [hl] at hok
    exact absurd hok (by simp)
  | some group =>
    rw [hl] at hok
    dsimp only [] at hok
    cases hf : group.members.find? (fun m => m.subscriberId == s) with
    | some mem0 =>
      rw [hf] at hok
      dsimp only [] at hok
      simp only [Except.ok.injEq, Prod.mk.injEq] at hok
      obtain ⟨-, hst⟩ := hok
      subst hst
      intro p hp
      rcases mem_aset hp with heq | hmem
      · subst heq
        have hg := hinv (g, group) (mem_of_alookup_eq_some hl)
        obtain ⟨hsub, hlead⟩ :=
          fields_eq_components (refresh_map_fields group.members mem0 s now hf hg.1)
        refine ⟨pairwise_subId_of_map_eq hsub hg.1, ?_⟩
        show ((group.members.map (fun m => if m.subscriberId == s then
          { mem0 with lastHeartbeat := now } else m)).filter (fun m => m.isLeader)).length ≤ 1
        rw [filter_isLeader_length_eq hlead]
        exact hg.2
      · exact hinv p hmem
    | none =>
      rw [hf] at hok
      dsimp only [] at hok
      simp only [Except.ok.injEq, Prod.mk.injEq] at hok
      obtain ⟨-, hst⟩ := hok
      subst hst
      apply groupLeaderInv_rebalance
      intro p hp
      rcases mem_aset hp with heq | hmem
      · subst heq
        have hg := hinv (g, group) (mem_of_alookup_eq_some hl)
        constructor
        · show List.Pairwise (fun a b => a.subscriberId ≠ b.subscriberId)
            (group.members ++ [({ subscriberId := s, clientId := c, joinedAt := now, lastHeartbeat := now, assignedPartitions := [], messagesProcessed := 0, isLeader := group.members.length == 0 } : ConsumerGroupMember)])
          rw [List.pairwise_append]
          refine ⟨hg.1, List.pairwise_singleton _ _, ?_⟩
          intro a ha b hb
          rw [List.mem_singleton] at hb
          subst hb
          have hne := List.find?_eq_none.mp hf a ha
          simpa using hne
        · show ((group.members ++ [({ subscriberId := s, clientId := c, joinedAt := now, lastHeartbeat := now, assignedPartitions := [], messagesProcessed := 0, isLeader := group.members.length == 0 } : ConsumerGroupMember)]).filter (fun m => m.isLeader)).length ≤ 1
          rw [List.filter_append]
          by_cases hemp : (group.members.length == 0) = true
          · have hnil : group.members = [] :=
              List.eq_nil_of_length_eq_zero (by simpa using hemp)
            simp [hnil, hemp]
          · have hg2 : ((group.members.filter (fun m => m.isLeader))).length ≤ 1 := hg.2
            simp [hemp]
            omega
      · exact hinv p hmem

/-- TS `leaveGroup` preserves the strengthened leader invariant: removing a
non-leader keeps the count, and removing the leader zeroes it before the
new head is promoted. -/
theorem groupLeaderInv_leaveGroup (st : ConsumerGroupManager) (s : String)
    (hinv : groupLeaderInv st) : groupLeaderInv (st.leaveGroup s) := by
  unfold ConsumerGroupManager.leaveGroup
  cases h1 : alookup st.memberToGroup s with
  | none => exact hinv
  | some gname =>
    dsimp only [] 
    cases h2 : alookup st.groups gname with
    | none => exact hinv
    | some group =>
      dsimp only [] 
      cases h3 : group.members.findIdx? (fun m => m.subscriberId == s) with
      | none => exact hinv
      | some i =>
        apply groupLeaderInv_rebalance
        intro p hp
        rcases mem_aset hp with heq | hmem
        · subst heq
          have hg := hinv (gname, group) (mem_of_alookup_eq_some h2)
          have hi : i < group.members.length := by
            rw [List.findIdx?_eq_some_iff_findIdx_eq] at h3
            exact h3.1
          have hgetd : ((group.members.get? i).getD default) = group.members[i] := by
            rw [List.get?_eq_getElem?, List.getElem?_eq_getElem hi]
            rfl
          have hcount := filter_isLeader_length_eraseIdx group.members i hi
          have hpe : List.Pairwise (fun a b => a.subscriberId ≠ b.subscriberId)
              (group.members.eraseIdx i) :=
            List.Pairwise.sublist (List.eraseIdx_sublist group.members i) hg.1
          have hg2 : ((group.members.filter (fun m => m.isLeader))).length ≤ 1 := hg.2
          rw [hgetd]
          by_cases hwl : group.members[i].isLeader = true
          · rw [if_pos hwl]
            have herased :
                ((group.members.eraseIdx i).filter (fun m => m.isLeader)).length = 0 := by
              rw [hwl] at hcount
              simp at hcount
              omega
            cases he : group.members.eraseIdx i with
            | nil => exact ⟨List.Pairwise.nil, by simp [leaderCount]⟩
            | cons hd tl =>
              rw [he] at hpe herased
              rw [List.pairwise_cons] at hpe
              constructor
              · rw [List.pairwise_cons]
                exact ⟨fun b hb => hpe.1 b hb, hpe.2⟩
              · show (({ hd with isLeader := true } :: tl).filter
                  (fun m => m.isLeader)).length ≤ 1
                rw [List.filter_cons] at herased ⊢
                rw [if_pos rfl]
                simp only [List.length_cons]
                by_cases hhd : hd.isLeader = true
                · rw [if_pos hhd] at herased
                  simp at herased
                · rw [if_neg hhd] at herased
                  omega
          · rw [if_neg hwl]
            refine ⟨hpe, ?_⟩
            show ((group.members.eraseIdx i).filter (fun m => m.isLeader)).length ≤ 1
            simp [hwl] at hcount
            omega
        · exact hinv p hmem

/-- Rebalancing a non-empty member list keeps a head with the same
leader flag. -/
theorem rebalanceMembers_cons_head (hd : ConsumerGroupMember)
    (tl : List ConsumerGroupMember) :
    ∃ hd' tl', rebalanceMembers (hd :: tl) = hd' :: tl' ∧ hd'.isLeader = hd.isLeader := by
  unfold rebalanceMembers
  rw [if_neg (by simp)]
  rw [show (hd :: tl).enum = (0, hd) :: tl.enumFrom 1 from List.enum_cons]
  rw [List.map_cons]
  exact ⟨_, _, rfl, rfl⟩

/-- C9: after any sequence of `createGroup`, `joinGroup` and `leaveGroup`
operations on a fresh manager, every group has at most one member with
the leader flag; a member joining an empty group becomes its leader; and
when the leader leaves a group that remains non-empty, the new head of
the member list carries the leader flag. -/
theorem consumer_group_leader_spec :
    (∀ ops : List GroupOp,
      atMostOneLeader (applyGroupOps ConsumerGroupManager.empty ops)) ∧
    (∀ (st : ConsumerGroupManager) (g s c : String) (now : Nat)
        (group : ConsumerGroup) (member : ConsumerGroupMember)
        (st' : ConsumerGroupManager),
      alookup st.groups g = some group → group.members = [] →
      st.joinGroup g s c now = .ok (member, st') → member.isLeader = true) ∧
    (∀ (st : ConsumerGroupManager) (s gname : String) (group : ConsumerGroup)
        (i : Nat) (hi : i < group.members.length),
      alookup st.memberToGroup s = some gname →
      alookup st.groups gname = some group →
      group.members.findIdx? (fun m => m.subscriberId == s) = some i →
      (group.members.get ⟨i, hi⟩).isLeader = true →
      group.members.eraseIdx i ≠ [] →
      ∃ group', alookup (st.leaveGroup s).groups gname = some group' ∧
        ∃ hd' tl', group'.members = hd' :: tl' ∧ hd'.isLeader = true) := by
  have hstep : ∀ (op : GroupOp) (st : ConsumerGroupManager),
      groupLeaderInv st → groupLeaderInv (applyGroupOp st op) := by
    intro op st hinv
    cases op with
    | create name topic strategy now =>
      unfold applyGroupOp
      dsimp only []
      cases hc : st.createGroup name topic strategy now with
      | error e => exact hinv
      | ok p =>
        unfold ConsumerGroupManager.createGroup at hc
        by_cases h : ((alookup st.groups name).isSome) = true
        · rw [if_pos h] at hc
          exact absurd hc (by simp)
        · rw [if_neg h] at hc
          simp only [Except.ok.injEq] at hc
          subst hc
          intro q hq
          rcases mem_aset hq with heq | hmem
          · subst heq
            exact ⟨List.Pairwise.nil, by simp [leaderCount]⟩
          · exact hinv q hmem
    | join g s c now =>
      unfold applyGroupOp
      dsimp only []
      cases hj : st.joinGroup g s c now with
      | error e => exact hinv
      | ok p => exact groupLeaderInv_joinGroup st g s c now hinv p.1 p.2 (by rw [hj])
    | leave s =>
      unfold applyGroupOp
      dsimp only []
      exact groupLeaderInv_leaveGroup st s hinv
  have hfold : ∀ (ops : List GroupOp) (st : ConsumerGroupManager),
      groupLeaderInv st → groupLeaderInv (applyGroupOps st ops) := by
    intro ops
    induction ops with
    | nil => intro st h; exact h
    | cons op rest ih => intro st h; exact ih _ (hstep op st h)
  refine ⟨?_, ?_, ?_⟩
  · intro ops p hp
    have hempty : groupLeaderInv ConsumerGroupManager.empty := by
      intro q hq
      simp [ConsumerGroupManager.empty] at hq
    exact (hfold ops ConsumerGroupManager.empty hempty p hp).2
  · intro st g s c now group member st' hg hempty hok
    unfold ConsumerGroupManager.joinGroup at hok
    rw [hg] at hok
    dsimp only [] at hok
    rw [hempty] at hok
    simp only [List.find?, Except.ok.injEq, Prod.mk.injEq] at hok
    obtain ⟨rfl, -⟩ := hok
    rfl
  · intro st s gname group i hi hm2g hg hfind hlead hne
    unfold ConsumerGroupManager.leaveGroup
    rw [hm2g]
    dsimp only []
    rw [hg]
    dsimp only []
    rw [hfind]
    dsimp only []
    have hgetd : ((group.members.get? i).getD default) = group.members.get ⟨i, hi⟩ := by
      rw [List.get?_eq_getElem?, List.getElem?_eq_getElem hi]
      rfl
    rw [hgetd, hlead]
    rw [if_pos rfl]
    cases he : group.members.eraseIdx i with
    | nil => exact absurd he hne
    | cons hd tl =>
      obtain ⟨hd', tl', hreb, hlead'⟩ :=
        rebalanceMembers_cons_head ({ hd with isLeader := true }) tl
      unfold ConsumerGroupManager.rebalance
      rw [alookup_aset_self]
      dsimp only []
      rw [alookup_aset_self]
      refine ⟨_, rfl, hd', tl', ?_, ?_⟩
      · exact hreb
      · rw [hlead']

/-- C9 witness: group `g` with `s1` (leader) and `s2`; when `s1` leaves,
the surviving head `s2` carries the leader flag; and the invariant holds
after the whole operation sequence. -/
theorem consumer_group_leader_spec_witness :
    atMostOneLeader (applyGroupOps ConsumerGroupManager.empty
      [GroupOp.create "g" "t" LoadBalanceStrategy.roundRobin 0,
       GroupOp.join "g" "s1" "c1" 0, GroupOp.join "g" "s2" "c2" 0,
       GroupOp.leave "s1"]) ∧
    (∃ group', alookup ((applyGroupOps ConsumerGroupManager.empty
        [GroupOp.create "g" "t" LoadBalanceStrategy.roundRobin 0,
         GroupOp.join "g" "s1" "c1" 0,
         GroupOp.join "g" "s2" "c2" 0]).leaveGroup "s1").groups "g" = some group' ∧
      ∃ hd' tl', group'.members = hd' :: tl' ∧ hd'.isLeader = true) :=
  ⟨consumer_group_leader_spec.1 _,
   consumer_group_leader_spec.2.2
    (applyGroupOps ConsumerGroupManager.empty
      [GroupOp.create "g" "t" LoadBalanceStrategy.roundRobin 0,
       GroupOp.join "g" "s1" "c1" 0, GroupOp.join "g" "s2" "c2" 0])
    "s1" "g" _ 0 (by decide) rfl rfl (by decide) (by decide) (by decide)⟩

/-- Processing one recipient either logs nothing or logs exactly one
invocation, tagged with that recipient's id. -/
theorem routeOne_log (b : Broker) (sinkThrows : SinkBehavior) (message : Message)
    (subscriberId : String) (now : Nat) :
    (b.routeOne sinkThrows message subscriberId now).2 = [] ∨
    (b.routeOne sinkThrows message subscriberId now).2 = [(subscriberId, message)] := by
  unfold Broker.routeOne Broker.deliverMessage
  cases alookup b.subscribers subscriberId with
  | none => exact Or.inl rfl
  | some sub =>
    dsimp only []
    split
    · exact Or.inl rfl
    · split
      · split
        · split
          · exact Or.inr rfl
          · exact Or.inr rfl
        · exact Or.inl rfl
      · exact Or.inl rfl

/-- Processing one recipient never touches another subscriber's record
or the callback registry. -/
theorem routeOne_preserves (b : Broker) (sinkThrows : SinkBehavior)
    (message : Message) (subscriberId : String) (now : Nat) (sid : String)
    (hne : sid ≠ subscriberId) :
    alookup (b.routeOne sinkThrows message subscriberId now).1.subscribers sid =
      alookup b.subscribers sid ∧
    (b.routeOne sinkThrows message subscriberId now).1.messageCallbacks =
      b.messageCallbacks := by
  unfold Broker.routeOne Broker.deliverMessage Broker.queueMessage
  cases alookup b.subscribers subscriberId with
  | none => exact ⟨rfl, rfl⟩
  | some sub =>
    dsimp only []
    split
    · exact ⟨rfl, rfl⟩
    · split
      · split
        · split
          · dsimp only []
            split
            · exact ⟨rfl, rfl⟩
            · exact ⟨alookup_aset_ne _ _ _ _ hne, rfl⟩
          · exact ⟨alookup_aset_ne _ _ _ _ hne, rfl⟩
        · exact ⟨rfl, rfl⟩
      · dsimp only []
        split
        · exact ⟨rfl, rfl⟩
        · exact ⟨alookup_aset_ne _ _ _ _ hne, rfl⟩

/-- An online, filter-free recipient with a registered, non-throwing
callback is logged exactly once by `routeOne`. -/
theorem routeOne_delivers (b : Broker) (sinkThrows : SinkBehavior)
    (message : Message) (sid : String) (now : Nat) (sub : Subscriber)
    (hsub : alookup b.subscribers sid = some sub)
    (hfil : sub.filter = none) (hon : sub.isOnline = true)
    (hcb : b.messageCallbacks.contains sid = true)
    (hns : sinkThrows sid message = false) :
    (b.routeOne sinkThrows message sid now).2 = [(sid, message)] := by
  unfold Broker.routeOne
  rw [hsub]
  dsimp only []
  rw [hfil]
  dsimp only []
  rw [if_neg (by simp)]
  rw [hon]
  rw [if_pos rfl]
  unfold Broker.deliverMessage
  rw [hcb]
  rw [if_pos rfl]
  rw [hns]
  rw [if_neg (by simp)]

/-- The deduplicated union keeps membership. -/
theorem mem_insertionDedup : ∀ (l : List String) (a : String),
    a ∈ insertionDedup l ↔ a ∈ l := by
  intro l
  induction l with
  | nil => intro a; simp [insertionDedup]
  | cons x t ih =>
    intro a
    simp only [insertionDedup, List.mem_cons, List.mem_filter]
    constructor
    · rintro (rfl | ⟨h1, _⟩)
      · exact Or.inl rfl
      · exact Or.inr ((ih a).mp h1)
    · rintro (rfl | h)
      · exact Or.inl rfl
      · by_cases hax : a = x
        · exact Or.inl hax
        · exact Or.inr ⟨(ih a).mpr h, by simpa using hax⟩

/-- The deduplicated union is duplicate-free. -/
theorem nodup_insertionDedup : ∀ l : List String, (insertionDedup l).Nodup := by
  intro l
  induction l with
  | nil => simp [insertionDedup]
  | cons x t ih =>
    simp only [insertionDedup, List.nodup_cons]
    constructor
    · intro hx
      rw [List.mem_filter] at hx
      simpa using hx.2
    · exact ih.filter _

/-- Every log entry of the routing loop is tagged with one of the
processed recipient ids. -/
theorem routeLoop_log_mem (sinkThrows : SinkBehavior) (message : Message)
    (now : Nat) :
    ∀ (ids : List String) (b : Broker),
      ∀ d ∈ (Broker.routeLoop sinkThrows message now ids b).2, d.1 ∈ ids := by
  intro ids
  induction ids with
  | nil => intro b d hd; simp [Broker.routeLoop] at hd
  | cons id rest ih =>
    intro b d hd
    unfold Broker.routeLoop at hd
    dsimp only [] at hd
    rw [List.mem_append] at hd
    cases hd with
    | inl h =>
      rcases routeOne_log b sinkThrows message id now with he | he
      · rw [he] at h
        simp at h
      · rw [he] at h
        rw [List.mem_singleton] at h
        subst h
        exact List.mem_cons_self _ _
    | inr h => exact List.mem_cons_of_mem _ (ih _ d h)

/-- Over a duplicate-free recipient list containing an online,
filter-free subscriber with a registered non-throwing callback, the
routing loop logs that subscriber exactly once. -/
theorem routeLoop_count (sinkThrows : SinkBehavior) (message : Message)
    (now : Nat) (sid : String) :
    ∀ (ids : List String) (b : Broker) (sub : Subscriber),
      ids.Nodup → sid ∈ ids →
      alookup b.subscribers sid = some sub → sub.filter = none →
      sub.isOnline = true → b.messageCallbacks.contains sid = true →
      sinkThrows sid message = false →
      ((Broker.routeLoop sinkThrows message now ids b).2.filter
        (fun d => d.1 == sid)).length = 1 := by
  intro ids
  induction ids with
  | nil => intro b sub _ hmem; simp at hmem
  | cons id rest ih =>
    intro b sub hnd hmem hsub hfil hon hcb hns
    unfold Broker.routeLoop
    dsimp only []
    rw [List.filter_append, List.length_append]
    rw [List.nodup_cons] at hnd
    by_cases hid : id = sid
    · subst hid
      rw [routeOne_delivers b sinkThrows message id now sub hsub hfil hon hcb hns]
      have hzero : (((Broker.routeLoop sinkThrows message now rest
          ((b.routeOne sinkThrows message id now).1)).2).filter
            (fun d => d.1 == id)).length = 0 := by
        rw [List.length_eq_zero, List.filter_eq_nil_iff]
        intro d hd
        have hdm : d.1 ∈ rest := routeLoop_log_mem sinkThrows message now rest _ d hd
        have : d.1 ≠ id := fun h => hnd.1 (h ▸ hdm)
        simpa using this
      rw [hzero]
      simp
    · have hmem' : sid ∈ rest := by
        cases List.mem_cons.mp hmem with
        | inl h => exact absurd h.symm hid
        | inr h => exact h
      have hpres := routeOne_preserves b sinkThrows message id now sid (fun h => hid h.symm)
      have hstep0 : (((b.routeOne sinkThrows message id now).2).filter
          (fun d => d.1 == sid)).length = 0 := by
        rcases routeOne_log b sinkThrows message id now with he | he
        · rw [he]; rfl
        · rw [he]
          simp [hid]
      have hrec := ih (b.routeOne sinkThrows message id now).1 sub hnd.2 hmem'
        (hpres.1.trans hsub) hfil hon (by rw [hpres.2]; exact hcb) hns
      rw [hstep0, hrec]
  -- 0 + 1 = 1

/-- TS `recordMessage` never touches the subscriber index. -/
theorem recordMessage_topicSubscribers (tm : TopicManager) (message : Message)
    (now : Nat) :
    (tm.recordMessage message now).topicSubscribers = tm.topicSubscribers := by
  unfold TopicManager.recordMessage
  cases alookup tm.topics message.topic <;> rfl

/-- TS `getSubscribers` only reads the subscriber index. -/
theorem getSubscribers_congr {tm1 tm2 : TopicManager}
    (h : tm1.topicSubscribers = tm2.topicSubscribers) (name : String) :
    tm1.getSubscribers name = tm2.getSubscribers name := by
  unfold TopicManager.getSubscribers
  rw [h]

/-- C8: every online subscriber of the literal topic `"#"` with no
filter, a registered callback and a non-throwing sink is handed each
successfully published message exactly once, whatever its topic. -/
theorem wildcard_subscriber_receives_once (b : Broker) (sinkThrows : SinkBehavior)
    (topic : String) (payload : Payload) (publisherId : String)
    (options : PublishOptions) (msgId : String) (now : Nat) (sid : String)
    (sub : Subscriber) (msg : Message) (b' : Broker) (log : List Delivery)
    (hwild : sid ∈ b.topicManager.getSubscribers "#")
    (hhash : b.topicManager.hasTopic "#" = true)
    (hsub : alookup b.subscribers sid = some sub)
    (hon : sub.isOnline = true) (hfil : sub.filter = none)
    (hcb : b.messageCallbacks.contains sid = true)
    (hns : ∀ m, sinkThrows sid m = false)
    (hpub : b.publish sinkThrows topic payload publisherId options msgId now =
      .ok (msg, b', log)) :
    (log.filter (fun d => d.1 == sid)).length = 1 := by
  unfold Broker.publish at hpub
  by_cases hht : b.topicManager.hasTopic topic = true
  · rw [hht] at hpub
    rw [if_pos rfl] at hpub
    dsimp only [] at hpub
    simp only [Except.ok.injEq, Prod.mk.injEq] at hpub
    obtain ⟨h1, h2, h3⟩ := hpub
    subst h3
    unfold Broker.routeMessage
    dsimp only []
    apply routeLoop_count sinkThrows _ now sid _
      ({ b with topicManager := b.topicManager.recordMessage { id := msgId, topic := topic, payload := payload, timestamp := now, publisherId := publisherId, headers := options.headers, replyTo := options.replyTo, correlationId := options.correlationId, ttl := options.ttl } now })
      sub (nodup_insertionDedup _) ?_ hsub hfil hon hcb (hns _)
    rw [mem_insertionDedup, List.mem_append]
    right
    have hpres : (b.topicManager.recordMessage
        { id := msgId, topic := topic, payload := payload, timestamp := now, publisherId := publisherId, headers := options.headers, replyTo := options.replyTo, correlationId := options.correlationId, ttl := options.ttl }
        now).topicSubscribers = b.topicManager.topicSubscribers :=
      recordMessage_topicSubscribers _ _ _
    rw [getSubscribers_congr hpres]
    exact hwild
  · have hne : topic ≠ "#" := by
      intro h
      rw [h] at hht
      exact hht hhash
    rw [eq_false_of_ne_true hht] at hpub
    rw [if_neg (show ¬(false = true) by simp)] at hpub
    unfold TopicManager.createTopic at hpub
    rw [if_neg (show ¬((alookup b.topicManager.topics topic).isSome = true) from hht)] at hpub
    by_cases hv : isValidTopicName topic = true
    · rw [hv] at hpub
      rw [if_neg (show ¬((!true) = true) by simp)] at hpub
      dsimp only [Except.map] at hpub
      simp only [Except.ok.injEq, Prod.mk.injEq] at hpub
      obtain ⟨h1, h2, h3⟩ := hpub
      subst h3
      unfold Broker.routeMessage
      dsimp only []
      apply routeLoop_count sinkThrows _ now sid _
        ({ b with topicManager := ({ topics := aset b.topicManager.topics topic { name := topic, createdAt := now, createdBy := publisherId, messageCount := 0, subscriberCount := 0, config := overlayConfig createTopicDefaultConfig TopicConfigOverride.empty }, messageHistory := aset b.topicManager.messageHistory topic [], topicSubscribers := aset b.topicManager.topicSubscribers topic [] } : TopicManager).recordMessage { id := msgId, topic := topic, payload := payload, timestamp := now, publisherId := publisherId, headers := options.headers, replyTo := options.replyTo, correlationId := options.correlationId, ttl := options.ttl } now })
        sub (nodup_insertionDedup _) ?_ hsub hfil hon hcb (hns _)
      rw [mem_insertionDedup, List.mem_append]
      right
      have hpres := recordMessage_topicSubscribers
        ({ topics := aset b.topicManager.topics topic
            { name := topic, createdAt := now, createdBy := publisherId, messageCount := 0, subscriberCount := 0, config := overlayConfig createTopicDefaultConfig TopicConfigOverride.empty }
           messageHistory := aset b.topicManager.messageHistory topic []
           topicSubscribers := aset b.topicManager.topicSubscribers topic [] } : TopicManager)
        ({ id := msgId, topic := topic, payload := payload, timestamp := now, publisherId := publisherId, headers := options.headers, replyTo := options.replyTo, correlationId := options.correlationId, ttl := options.ttl }) now
      rw [getSubscribers_congr hpres]
      show sid ∈ (alookup (aset b.topicManager.topicSubscribers topic []) "#").getD []
      rw [alookup_aset_ne _ _ _ _ (Ne.symm hne)]
      exact hwild
    · rw [eq_false_of_ne_true hv] at hpub
      rw [if_pos (show (!false) = true by simp)] at hpub
      dsimp only [Except.map] at hpub
      simp at hpub

/-- C8 witness: in the wildcard scenario the subscriber `mon1` on `"#"`
is logged exactly once by the publish to `a.b`. -/
theorem wildcard_subscriber_receives_once_witness :
    ((pubOk c8Broker "a.b" "m1" 1).2.filter (fun d => d.1 == "mon1")).length = 1 := by
  cases hpub : c8Broker.publish noThrow "a.b" [] "p" PublishOptions.empty "m1" 1 with
  | error e =>
    have h2 : (c8Broker.publish noThrow "a.b" [] "p" PublishOptions.empty
        "m1" 1).toOption.isSome = true := by decide
    rw [hpub] at h2
    simp [Except.toOption] at h2
  | ok r =>
    have hcount := wildcard_subscriber_receives_once c8Broker noThrow "a.b" [] "p"
      PublishOptions.empty "m1" 1 "mon1"
      ({ id := "mon1", clientId := "mon", topics := ["#"], createdAt := 0, lastActivity := 0, isOnline := true, pendingMessages := 0, deliveredMessages := 0, filter := none })
      r.1 r.2.1 r.2.2
      (by decide) (by decide) rfl rfl rfl rfl (fun m => rfl) (by rw [hpub])
    unfold pubOk
    rw [hpub]
    exact hcount

end Ankita
